import Mathlib

/-!
# Firemix — verification of the configuration-resolution / bundle-generation core

Shallow embedding, translated from the TypeScript sources of the `firemix`
repository (`config.ts`, `validation.ts`, `verify.ts`, `version.ts`,
`bundle.ts`).  Filesystem access is modelled by an abstract record of
observation functions; JavaScript strings are Lean `String`s; JavaScript
`undefined` for an optional string field is `Option.none`; a thrown
`Error` is `Except.error` carrying the message string.
-/

namespace Firemix

/-! ## Generic string / character helpers (JS string primitives) -/

/-- Character codes used to avoid quote-character literals. -/
def doubleQuoteChar : Char := Char.ofNat 34

def singleQuoteChar : Char := Char.ofNat 39

def backtickChar : Char := Char.ofNat 96

def backslashChar : Char := Char.ofNat 92

/-- `pre` is a prefix of `s` (on character lists). -/
def listIsPrefix : List Char → List Char → Bool
  | [], _ => true
  | _ :: _, [] => false
  | p :: ps, c :: cs => p == c && listIsPrefix ps cs

/-- JS `String.prototype.includes`: `pat` occurs as a contiguous substring. -/
def listContainsSub (pat : List Char) : List Char → Bool
  | [] => listIsPrefix pat []
  | c :: cs => listIsPrefix pat (c :: cs) || listContainsSub pat cs

/-- JS `s.includes(pat)`. -/
def containsSub (s pat : String) : Bool :=
  listContainsSub pat.toList s.toList

/-- JS `s.startsWith(pat)`. -/
def jsStartsWith (s pat : String) : Bool :=
  listIsPrefix pat.toList s.toList

/-- Characters of `s` before the last `/`; meaningful only when `s`
contains a `/` (JS `s.slice(0, s.lastIndexOf("/"))`). -/
def takeBeforeLastSlashAux : List Char → List Char
  | [] => []
  | c :: cs =>
    if listContainsSub ['/'] cs then c :: takeBeforeLastSlashAux cs
    else []

def takeBeforeLastSlash (s : String) : String :=
  String.mk (takeBeforeLastSlashAux s.toList)

/-- Characters of `s` after the last `/` (JS `s.slice(s.lastIndexOf("/") + 1)`). -/
def takeAfterLastSlashAux : List Char → List Char
  | [] => []
  | c :: cs =>
    if listContainsSub ['/'] cs then takeAfterLastSlashAux cs
    else if c == '/' then cs
    else c :: cs

def takeAfterLastSlash (s : String) : String :=
  String.mk (takeAfterLastSlashAux s.toList)

/-- `node:path` POSIX `dirname`, for the relative slash-separated paths this
code feeds it (no leading `/`, no empty input, no trailing slash): the part
before the last `/`, or `"."` when there is no `/`.  The sources only ever
call it on values accepted by `sanitizeRelativePath`. -/
def posixDirname (s : String) : String :=
  if containsSub s "/" then takeBeforeLastSlash s else "."

/-- `node:path` POSIX `basename` under the same conditions: the part after
the last `/`. -/
def posixBasename (s : String) : String :=
  if containsSub s "/" then takeAfterLastSlash s else s

/-- `node:path` `join(a, b)`, modelled as slash concatenation.  The joined
results are only ever used as opaque keys into the abstract filesystem, so
node's normalisation is irrelevant to the verified properties. -/
def pathJoin (a b : String) : String :=
  a ++ "/" ++ b

/-- JS truthiness of an optional string: present and non-empty. -/
def optTruthy : Option String → Bool
  | some s => !(s == "")
  | none => false

/-- `Except` produced a value. -/
def exceptIsOk {ε α : Type} : Except ε α → Bool
  | .ok _ => true
  | .error _ => false

/-- `Except` raised an error. -/
def exceptIsError {ε α : Type} : Except ε α → Bool
  | .ok _ => false
  | .error _ => true

/-! ## `config.ts` — Remix configuration resolution -/

/-- `ResolvedRemixConfig` (types.ts): the fully resolved layout. -/
structure ResolvedRemixConfig where
  buildDirectory : String
  serverBuildFile : String
  serverBuildPath : String
  clientBuildDir : String
  appDirectory : String
  deriving Repr, DecidableEq

/-- A JS object of type `Partial<ResolvedRemixConfig>` in which each field is
read only through property access (absent key and key-present-with-value-
`undefined` both read as `undefined`, hence both are `none` here). -/
structure PartialRemixConfig where
  buildDirectory : Option String := none
  serverBuildFile : Option String := none
  serverBuildPath : Option String := none
  clientBuildDir : Option String := none
  appDirectory : Option String := none
  deriving Repr, DecidableEq

/-- A JS `Partial<ResolvedRemixConfig>` override object in which the spread
`{...resolved, ...overrides}` makes the absent-key / present-but-`undefined`
distinction observable: `none` = key absent, `some none` = key present with
value `undefined`, `some (some s)` = key present with string value `s`. -/
structure OverrideRemixConfig where
  buildDirectory : Option (Option String) := none
  serverBuildFile : Option (Option String) := none
  serverBuildPath : Option (Option String) := none
  clientBuildDir : Option (Option String) := none
  appDirectory : Option (Option String) := none
  deriving Repr, DecidableEq

/-- Reading a field of an override object by property access: an absent key
reads as `undefined`. -/
def readField : Option (Option String) → Option String
  | none => none
  | some v => v

/-- `DEFAULTS` (config.ts). -/
def DEFAULTS : ResolvedRemixConfig :=
  { buildDirectory := "build"
    serverBuildFile := "index.js"
    serverBuildPath := "build/server/index.js"
    clientBuildDir := "build/client"
    appDirectory := "app" }

/-- Character class of letters, digits, dot, underscore, slash and dash
(config.ts `sanitizeDirectoryName` / `sanitizeRelativePath` whitelist). -/
def dirNameChar (c : Char) : Bool :=
  c.isAlphanum || c == '.' || c == '_' || c == '/' || c == '-'

/-- The whitelist regex: one or more `dirNameChar` characters. -/
def dirNamePattern (s : String) : Bool :=
  !(s == "") && s.toList.all dirNameChar

/-- `sanitizeDirectoryName` (config.ts). -/
def sanitizeDirectoryName (name fieldName : String) : Except String String :=
  if !dirNamePattern name then
    .error ("Invalid " ++ fieldName ++ ": \"" ++ name ++
      "\". Only alphanumeric, dash, underscore, dot, and forward slash are allowed.")
  else if containsSub name ".." || jsStartsWith name "/" then
    .error ("Invalid " ++ fieldName ++ ": \"" ++ name ++
      "\". Path traversal or absolute paths not allowed.")
  else
    .ok name

/-- `sanitizeRelativePath` (config.ts). -/
def sanitizeRelativePath (path fieldName : String) : Except String String :=
  if !dirNamePattern path then
    .error ("Invalid " ++ fieldName ++ ": \"" ++ path ++
      "\". Only alphanumeric, dash, underscore, dot, and forward slash are allowed.")
  else if containsSub path ".." || jsStartsWith path "/" ||
      containsSub path (String.mk [backslashChar]) then
    .error ("Invalid " ++ fieldName ++ ": \"" ++ path ++
      "\". Path traversal or absolute paths not allowed.")
  else
    .ok path

/-- `computeDerivedPaths` (config.ts). -/
def computeDerivedPaths (config : PartialRemixConfig) :
    Except String ResolvedRemixConfig := do
  let hasExplicitBuildDir := config.buildDirectory.isSome
  let hasExplicitServerFile := config.serverBuildFile.isSome
  let providedServerPath : Option String ←
    match config.serverBuildPath with
    | some p => do
        let v ← sanitizeRelativePath p "serverBuildPath"
        pure (some v)
    | none => pure none
  let buildDirectory ←
    if optTruthy config.buildDirectory then
      sanitizeDirectoryName (config.buildDirectory.getD "") "buildDirectory"
    else if optTruthy providedServerPath then
      pure (posixDirname (providedServerPath.getD ""))
    else
      pure DEFAULTS.buildDirectory
  let serverBuildFile ←
    if optTruthy config.serverBuildFile then
      sanitizeDirectoryName (config.serverBuildFile.getD "") "serverBuildFile"
    else if optTruthy providedServerPath then
      pure (posixBasename (providedServerPath.getD ""))
    else
      pure DEFAULTS.serverBuildFile
  if optTruthy config.appDirectory then do
    let _ ← sanitizeDirectoryName (config.appDirectory.getD "") "appDirectory"
    pure ()
  else
    pure ()
  let useProvidedServerPath :=
    optTruthy providedServerPath && !hasExplicitBuildDir && !hasExplicitServerFile
  let serverBuildPath :=
    if useProvidedServerPath then providedServerPath.getD ""
    else buildDirectory ++ "/server/" ++ serverBuildFile
  let clientBuildDir ←
    if optTruthy config.clientBuildDir then
      sanitizeRelativePath (config.clientBuildDir.getD "") "clientBuildDir"
    else
      pure (buildDirectory ++ "/client")
  pure
    { buildDirectory
      serverBuildFile
      serverBuildPath
      clientBuildDir
      appDirectory :=
        if optTruthy config.appDirectory then config.appDirectory.getD ""
        else DEFAULTS.appDirectory }

/-- The spread `{...resolved, ...overrides}` of `applyConfigOverrides`:
an override key that is present (even with value `undefined`) wins. -/
def spreadOverrides (resolved : ResolvedRemixConfig)
    (overrides : OverrideRemixConfig) : PartialRemixConfig :=
  { buildDirectory := (overrides.buildDirectory).getD (some resolved.buildDirectory)
    serverBuildFile := (overrides.serverBuildFile).getD (some resolved.serverBuildFile)
    serverBuildPath := (overrides.serverBuildPath).getD (some resolved.serverBuildPath)
    clientBuildDir := (overrides.clientBuildDir).getD (some resolved.clientBuildDir)
    appDirectory := (overrides.appDirectory).getD (some resolved.appDirectory) }

/-- `applyConfigOverrides` (config.ts). -/
def applyConfigOverrides (resolved : ResolvedRemixConfig)
    (overrides : OverrideRemixConfig) : Except String ResolvedRemixConfig :=
  let merged0 := spreadOverrides resolved overrides
  let merged :=
    if optTruthy (readField overrides.buildDirectory) &&
        (readField overrides.clientBuildDir).isNone then
      { merged0 with clientBuildDir := none }
    else merged0
  if optTruthy (readField overrides.buildDirectory) ||
      optTruthy (readField overrides.serverBuildFile) then
    computeDerivedPaths merged
  else
    .ok resolved

/-! ## Basic lemmas about the `Except` monad and the sanitizers -/

theorem exbind_ok {ε α β : Type} (a : α) (f : α → Except ε β) :
    (Except.ok a >>= f : Except ε β) = f a := rfl

theorem exbind_err {ε α β : Type} (e : ε) (f : α → Except ε β) :
    (Except.error e >>= f : Except ε β) = .error e := rfl

theorem expure_def {ε α : Type} (a : α) : (pure a : Except ε α) = .ok a := rfl

theorem sanitizeRelativePath_ok {p f v : String}
    (h : sanitizeRelativePath p f = .ok v) :
    v = p ∧ dirNamePattern p = true := by
  unfold sanitizeRelativePath at h
  split at h
  · exact absurd h (by simp)
  · split at h
    · exact absurd h (by simp)
    · refine ⟨by injection h with h; exact h.symm, ?_⟩
      simp_all

theorem sanitizeDirectoryName_ok {p f v : String}
    (h : sanitizeDirectoryName p f = .ok v) :
    v = p ∧ dirNamePattern p = true := by
  unfold sanitizeDirectoryName at h
  split at h
  · exact absurd h (by simp)
  · split at h
    · exact absurd h (by simp)
    · refine ⟨by injection h with h; exact h.symm, ?_⟩
      simp_all

theorem dirNamePattern_ne_empty {p : String} (h : dirNamePattern p = true) :
    p ≠ "" := by
  unfold dirNamePattern at h
  intro he
  subst he
  simp at h

theorem optTruthy_none : optTruthy none = false := rfl

theorem optTruthy_some_of_ne {p : String} (h : p ≠ "") :
    optTruthy (some p) = true := by
  simp [optTruthy, h]

theorem exbind_ok_iff {ε α β : Type} {x : Except ε α} {f : α → Except ε β}
    {r : β} : (x >>= f = .ok r) ↔ ∃ a, x = .ok a ∧ f a = .ok r := by
  cases x with
  | ok a => simp [exbind_ok]
  | error e =>
    constructor
    · intro h
      exact absurd h (by simp [exbind_err])
    · rintro ⟨a, ha, -⟩
      exact absurd ha (by simp)

/-- The effectful `buildDirectory` / `serverBuildFile` steps of
`computeDerivedPaths`: on success the bound value is the corresponding
conditional of the surface strings. -/
theorem stepDir_ok {c1 c2 : Bool} {b fn e1 e2 y : String}
    (h : (if c1 then sanitizeDirectoryName b fn
          else if c2 then pure e1 else pure e2) = Except.ok y) :
    y = if c1 then b else if c2 then e1 else e2 := by
  cases c1 with
  | true =>
    simp only [if_true] at h ⊢
    exact (sanitizeDirectoryName_ok h).1
  | false =>
    cases c2 with
    | true =>
      simp only [if_true, if_false, expure_def] at h ⊢
      injection h with h
      exact h.symm
    | false =>
      simp only [if_false, expure_def] at h ⊢
      injection h with h
      exact h.symm

/-- The effectful `clientBuildDir` step of `computeDerivedPaths`. -/
theorem stepRel_ok {c : Bool} {b fn e y : String}
    (h : (if c then sanitizeRelativePath b fn else pure e) = Except.ok y) :
    y = if c then b else e := by
  cases c with
  | true =>
    simp only [if_true] at h ⊢
    exact (sanitizeRelativePath_ok h).1
  | false =>
    simp only [if_false, expure_def] at h ⊢
    injection h with h
    exact h.symm

theorem sanitizeDirectoryName_ok_iff {name fn y : String} :
    sanitizeDirectoryName name fn = .ok y ↔
      dirNamePattern name = true ∧
      (containsSub name ".." || jsStartsWith name "/") = false ∧ y = name := by
  unfold sanitizeDirectoryName
  split
  · rename_i h
    simp only [Bool.not_eq_true'] at h
    simp [h]
  · rename_i h
    simp only [Bool.not_eq_true', Bool.not_eq_false] at h
    split
    · rename_i h2
      simp [h, h2]
    · rename_i h2
      simp only [Bool.not_eq_true] at h2
      simp [h, h2, eq_comm]

theorem sanitizeRelativePath_ok_iff {name fn y : String} :
    sanitizeRelativePath name fn = .ok y ↔
      dirNamePattern name = true ∧
      (containsSub name ".." || jsStartsWith name "/" ||
        containsSub name (String.mk [backslashChar])) = false ∧ y = name := by
  unfold sanitizeRelativePath
  split
  · rename_i h
    simp only [Bool.not_eq_true'] at h
    simp [h]
  · rename_i h
    simp only [Bool.not_eq_true', Bool.not_eq_false] at h
    split
    · rename_i h2
      simp [h, h2]
    · rename_i h2
      simp only [Bool.not_eq_true] at h2
      simp [h, h2, eq_comm]

set_option maxHeartbeats 3200000 in
/-- Characterization of every field of a successful `computeDerivedPaths`. -/
theorem computeDerivedPaths_ok_fields (cfg : PartialRemixConfig)
    (r : ResolvedRemixConfig) (hok : computeDerivedPaths cfg = .ok r) :
    r.buildDirectory =
      (if optTruthy cfg.buildDirectory then cfg.buildDirectory.getD ""
       else if cfg.serverBuildPath.isSome then
         posixDirname (cfg.serverBuildPath.getD "")
       else "build") ∧
    r.serverBuildFile =
      (if optTruthy cfg.serverBuildFile then cfg.serverBuildFile.getD ""
       else if cfg.serverBuildPath.isSome then
         posixBasename (cfg.serverBuildPath.getD "")
       else "index.js") ∧
    r.serverBuildPath =
      (if cfg.serverBuildPath.isSome && !cfg.buildDirectory.isSome &&
          !cfg.serverBuildFile.isSome then
        cfg.serverBuildPath.getD ""
      else r.buildDirectory ++ "/server/" ++ r.serverBuildFile) ∧
    r.clientBuildDir =
      (if optTruthy cfg.clientBuildDir then cfg.clientBuildDir.getD ""
       else r.buildDirectory ++ "/client") ∧
    r.appDirectory =
      (if optTruthy cfg.appDirectory then cfg.appDirectory.getD "" else "app") := by
  rcases cfg with ⟨bd, sf, sp, cd, ad⟩
  rcases sp with _ | p
  · simp only [computeDerivedPaths, optTruthy_none] at hok
    repeat'
      first
      | split at hok
      | (rw [exbind_ok_iff] at hok
         obtain ⟨_, _, hok⟩ := hok)
      | simp only [] at hok
    all_goals
      try simp only [expure_def, Except.ok.injEq] at *
    all_goals subst_vars
    all_goals
      simp_all [sanitizeDirectoryName_ok_iff, sanitizeRelativePath_ok_iff,
        expure_def, optTruthy, DEFAULTS]
  · simp only [computeDerivedPaths] at hok
    rw [exbind_ok_iff] at hok
    obtain ⟨v, hv, hok⟩ := hok
    try simp only [] at hok
    obtain ⟨hvp, hpat⟩ := sanitizeRelativePath_ok hv
    subst hvp
    have hp : v ≠ "" := dirNamePattern_ne_empty hpat
    try simp only [optTruthy_some_of_ne hp, Option.getD_some] at hok
    repeat'
      first
      | split at hok
      | (rw [exbind_ok_iff] at hok
         obtain ⟨_, _, hok⟩ := hok)
      | simp only [] at hok
    all_goals
      try simp only [expure_def, Except.ok.injEq] at *
    all_goals subst_vars
    all_goals
      simp_all [sanitizeDirectoryName_ok_iff, sanitizeRelativePath_ok_iff,
        expure_def, optTruthy, DEFAULTS]
    all_goals
      try (split <;> first | rfl | tauto)

/-! ## Claims C3, C4, C5 — config resolution -/

/-- C3: if config extraction yields an explicit legacy server path and neither
a build directory nor a server entry file name was independently specified,
the resolved `serverBuildPath` is that extracted string verbatim and
`buildDirectory` is its parent directory; in every other case
`serverBuildPath` is `buildDirectory ++ "/server/" ++ serverBuildFile`. -/
theorem claim_C3_legacy_server_path (cfg : PartialRemixConfig)
    (r : ResolvedRemixConfig) (hok : computeDerivedPaths cfg = .ok r) :
    (∀ p, cfg.serverBuildPath = some p → cfg.buildDirectory = none →
      cfg.serverBuildFile = none →
      r.serverBuildPath = p ∧ r.buildDirectory = posixDirname p) ∧
    ((cfg.buildDirectory.isSome ∨ cfg.serverBuildFile.isSome ∨
        cfg.serverBuildPath = none) →
      r.serverBuildPath = r.buildDirectory ++ "/server/" ++ r.serverBuildFile) := by
  obtain ⟨hbd, hsf, hsp, hcd, had⟩ := computeDerivedPaths_ok_fields cfg r hok
  constructor
  · intro p hp hbdn hsfn
    rw [hp, hbdn, hsfn] at hsp
    rw [hp, hbdn] at hbd
    simp only [Option.isSome_some, Option.isSome_none, Option.getD_some,
      optTruthy_none, Bool.not_false, Bool.and_true, Bool.true_and,
      Bool.false_eq_true, if_true, if_false] at hsp hbd
    exact ⟨hsp, hbd⟩
  · intro hother
    rw [hsp]
    have hc : (cfg.serverBuildPath.isSome && !cfg.buildDirectory.isSome &&
        !cfg.serverBuildFile.isSome) = false := by
      rcases hother with h | h | h <;> simp [h]
    rw [hc]
    simp

theorem claim_C3_legacy_server_path_witness :
    computeDerivedPaths { serverBuildPath := some "build/index.js" } =
      .ok ⟨"build", "index.js", "build/index.js", "build/client", "app"⟩ ∧
    (⟨"build", "index.js", "build/index.js", "build/client", "app"⟩ :
      ResolvedRemixConfig).serverBuildPath = "build/index.js" ∧
    (⟨"build", "index.js", "build/index.js", "build/client", "app"⟩ :
      ResolvedRemixConfig).buildDirectory = posixDirname "build/index.js" := by
  refine ⟨by rfl, ?_⟩
  exact (claim_C3_legacy_server_path
    { serverBuildPath := some "build/index.js" }
    ⟨"build", "index.js", "build/index.js", "build/client", "app"⟩
    (by rfl)).1 "build/index.js" rfl rfl rfl

/-- C4: an override that sets `buildDirectory` to a non-empty `b2` without
supplying a client assets directory yields a layout whose `clientBuildDir`
is recomputed as `b2 ++ "/client"` (never the stale value derived from the
previous build directory). -/
theorem claim_C4_no_stale_client_dir (L L2 : ResolvedRemixConfig)
    (O : OverrideRemixConfig) (b2 : String)
    (hb : O.buildDirectory = some (some b2)) (hne : b2 ≠ "")
    (hcd : readField O.clientBuildDir = none)
    (hok : applyConfigOverrides L O = .ok L2) :
    L2.clientBuildDir = b2 ++ "/client" ∧ L2.buildDirectory = b2 := by
  unfold applyConfigOverrides at hok
  rw [hb, hcd] at hok
  simp only [readField, optTruthy_some_of_ne hne, Option.isNone_none,
    Bool.and_true, Bool.true_and, if_true, Bool.true_or] at hok
  obtain ⟨hbd, -, -, hcdE, -⟩ := computeDerivedPaths_ok_fields _ _ hok
  simp only [spreadOverrides, hb, Option.getD_some] at hbd hcdE
  simp only [optTruthy_some_of_ne hne, optTruthy_none, if_true, if_false,
    Bool.false_eq_true] at hbd hcdE
  exact ⟨by rw [hcdE, hbd], hbd⟩

theorem claim_C4_no_stale_client_dir_witness :
    applyConfigOverrides DEFAULTS { buildDirectory := some (some "dist") } =
      .ok ⟨"dist", "index.js", "dist/server/index.js", "dist/client", "app"⟩ ∧
    (⟨"dist", "index.js", "dist/server/index.js", "dist/client", "app"⟩ :
      ResolvedRemixConfig).clientBuildDir = "dist" ++ "/client" ∧
    (⟨"dist", "index.js", "dist/server/index.js", "dist/client", "app"⟩ :
      ResolvedRemixConfig).buildDirectory = "dist" := by
  refine ⟨by rfl, ?_⟩
  exact claim_C4_no_stale_client_dir DEFAULTS
    ⟨"dist", "index.js", "dist/server/index.js", "dist/client", "app"⟩
    { buildDirectory := some (some "dist") } "dist" rfl (by decide) rfl (by rfl)

/-- C5 counterexample: an override that touches only `clientBuildDir` is
silently ignored — `applyConfigOverrides` returns the original layout, whose
`clientBuildDir` is not the supplied value.  This refutes the claim that
every field explicitly present in an override carries the override's value
in the returned layout. -/
theorem claim_C5_cex_lone_client_dir_ignored :
    applyConfigOverrides DEFAULTS
      { clientBuildDir := some (some "public/assets") } = .ok DEFAULTS ∧
    DEFAULTS.clientBuildDir ≠ "public/assets" := by
  exact ⟨by rfl, by decide⟩

/-- C5 (amended): when an override contains neither a non-empty
`buildDirectory` nor a non-empty `serverBuildFile`, `applyConfigOverrides`
returns the resolved layout unchanged, so every field of such an override —
including `clientBuildDir` and `appDirectory` — is silently ignored. -/
theorem claim_C5_overrides_ignored_without_recompute
    (L : ResolvedRemixConfig) (O : OverrideRemixConfig)
    (hbd : optTruthy (readField O.buildDirectory) = false)
    (hsf : optTruthy (readField O.serverBuildFile) = false) :
    applyConfigOverrides L O = .ok L := by
  unfold applyConfigOverrides
  simp [hbd, hsf]

theorem claim_C5_overrides_ignored_without_recompute_witness :
    applyConfigOverrides DEFAULTS
      { clientBuildDir := some (some "public/assets"),
        appDirectory := some (some "source") } = .ok DEFAULTS :=
  claim_C5_overrides_ignored_without_recompute DEFAULTS
    { clientBuildDir := some (some "public/assets"),
      appDirectory := some (some "source") } rfl rfl

/-! ## `validation.ts` — input validation & security -/

/-- Character class of ASCII letters, digits, dot, underscore and dash
(validation.ts `sanitizeBuildDir` whitelist — no slash). -/
def buildDirChar (c : Char) : Bool :=
  c.isAlphanum || c == '.' || c == '_' || c == '-'

/-- The `sanitizeBuildDir` whitelist regex: one or more `buildDirChar`s. -/
def buildDirPattern (s : String) : Bool :=
  !(s == "") && s.toList.all buildDirChar

/-- `sanitizeBuildDir` (validation.ts).  The `console.warn` branch for names
starting with a dot is a side effect only and is not modelled. -/
def sanitizeBuildDir (buildDir : String) : Except String String :=
  if buildDir == "" then
    .error "Build directory must be a non-empty string"
  else if !buildDirPattern buildDir then
    .error ("Invalid build directory name: \"" ++ buildDir ++
      "\". Only alphanumeric, dash, underscore, and dot are allowed.")
  else if buildDir == "." || buildDir == ".." then
    .error "Build directory cannot be . or .."
  else
    .ok buildDir

/-- JS `s.slice(0, n)`. -/
def jsSliceTo (s : String) (n : Nat) : String :=
  String.mk (s.toList.take n)

/-- JS `s.slice(1)`. -/
def jsDrop1 (s : String) : String :=
  String.mk (s.toList.drop 1)

/-- Middle character class of the package-name regex (letters, digits, dot,
underscore, dash; case-insensitive regex over ASCII). -/
def pkgMidChar (c : Char) : Bool :=
  c.isAlphanum || c == '.' || c == '_' || c == '-'

/-- The package-name regex of validation.ts: an alphanumeric first character,
then optionally middle characters from `pkgMidChar` ending in an
alphanumeric character. -/
def validPackagePattern (s : String) : Bool :=
  match s.toList with
  | [] => false
  | c :: cs =>
    c.isAlphanum &&
      (match cs with
       | [] => true
       | _ :: _ =>
         cs.dropLast.all pkgMidChar && (cs.getLast?.getD ' ').isAlphanum)

/-- `validatePackageName` (validation.ts).  JS string length is modelled as
the character count. -/
def validatePackageName (name : String) : Except String Unit :=
  if name == "" then
    .error "Package name must be a non-empty string"
  else if name.length > 214 then
    .error ("Package name too long: " ++ jsSliceTo name 50 ++ "...")
  else if containsSub name ".." || containsSub name "/.." ||
      containsSub name (String.mk [backslashChar]) then
    .error ("Invalid package name (path traversal attempt): " ++ name)
  else if jsStartsWith name "." || jsStartsWith name "_" then
    .error ("Invalid package name (cannot start with . or _): " ++ name)
  else if jsStartsWith name "@" then
    let parts := (jsDrop1 name).splitOn "/"
    if parts.length != 2 || (parts.getD 0 "") == "" || (parts.getD 1 "") == "" then
      .error ("Invalid scoped package name: " ++ name)
    else if !validPackagePattern (parts.getD 0 "") ||
        !validPackagePattern (parts.getD 1 "") then
      .error ("Invalid scoped package name format: " ++ name)
    else
      .ok ()
  else if !validPackagePattern name then
    .error ("Invalid package name format: " ++ name)
  else
    .ok ()

/-- A parsed JSON value (the result of `JSON.parse`).  `JSON.parse` creates
every declared key — including `__proto__` — as an own property, a
duplicate key collapsing to its last occurrence. -/
inductive Json where
  | null
  | bool (b : Bool)
  | num (n : Int)
  | str (s : String)
  | arr (elems : List Json)
  | obj (fields : List (String × Json))

/-- JS `Object.hasOwn(obj, k)` on a parsed-JSON object. -/
def hasOwn (fields : List (String × Json)) (k : String) : Bool :=
  fields.any (fun kv => kv.1 == k)

/-- Property access `obj[k]`: the last declared occurrence wins
(`JSON.parse` duplicate-key semantics); an absent key reads as `undefined`
(`none`). -/
def jsLookup (fields : List (String × Json)) (k : String) : Option Json :=
  ((fields.filter (fun kv => kv.1 == k)).getLast?).map Prod.snd

/-- `isValidDependencyObject` (validation.ts): a non-null non-array object
whose values are all strings. -/
def isValidDependencyObject : Json → Bool
  | .obj fields =>
    fields.all (fun kv => match kv.2 with | .str _ => true | _ => false)
  | _ => false

/-- The string pairs of a dependency object (meaningful only when
`isValidDependencyObject` holds). -/
def depPairsOf : Json → List (String × String)
  | .obj fields =>
    fields.map (fun kv => (kv.1, match kv.2 with | .str s => s | _ => ""))
  | _ => []

/-- `ParsedPackageJson` (validation.ts). -/
structure ParsedPackageJson where
  name : Option String
  version : Option String
  dependencies : Option (List (String × String))
  devDependencies : Option (List (String × String))
  deriving Repr, DecidableEq

/-- A string-typed field of the whitelist extraction. -/
def strField (fields : List (String × Json)) (k : String) : Option String :=
  match jsLookup fields k with
  | some (.str s) => some s
  | _ => none

/-- A dependency-map field of the whitelist extraction. -/
def depField (fields : List (String × Json)) (k : String) :
    Option (List (String × String)) :=
  match jsLookup fields k with
  | some v => if isValidDependencyObject v then some (depPairsOf v) else none
  | none => none

/-- The body of `safeParsePackageJson` (validation.ts) after `JSON.parse`:
object check, prototype-pollution rejection in the source order of
`dangerousKeys`, then whitelist extraction of the four expected fields. -/
def parsePackageJsonValue : Json → Except String ParsedPackageJson
  | .obj fields =>
    if hasOwn fields "__proto__" then
      .error "Security: package.json contains dangerous key: __proto__"
    else if hasOwn fields "constructor" then
      .error "Security: package.json contains dangerous key: constructor"
    else if hasOwn fields "prototype" then
      .error "Security: package.json contains dangerous key: prototype"
    else
      .ok
        { name := strField fields "name"
          version := strField fields "version"
          dependencies := depField fields "dependencies"
          devDependencies := depField fields "devDependencies" }
  | _ => .error "Invalid package.json: must be an object"

/-! ## The abstract filesystem -/

/-- Abstract filesystem observations (`node:fs` as used by the sources).
Each field gives the outcome of one primitive observation at a path. -/
structure FS where
  /-- `existsSync(path)`. -/
  existsSync : String → Bool
  /-- `lstatSync(path).isSymbolicLink()` (meaningful when the path exists). -/
  isSymbolicLink : String → Bool
  /-- `statSync(path).isFile()`. -/
  statIsFile : String → Bool
  /-- `statSync(path).size`. -/
  statSize : String → Nat
  /-- `lstatSync(path).isDirectory()`. -/
  lstatIsDirectory : String → Bool
  /-- Number of `readdirSync(path)` entries whose name does not start with a
  dot; `0` when the directory cannot be read. -/
  visibleEntryCount : String → Nat
  /-- `readFileSync(path, "utf-8")` (meaningful when the path exists). -/
  readFile : String → String
  /-- `JSON.parse(readFileSync(path, "utf-8"))`: `none` when the text is not
  valid JSON (`JSON.parse` throws). -/
  jsonContent : String → Option Json

/-- `MAX_PACKAGE_JSON_SIZE` (validation.ts): 100 KiB. -/
def MAX_PACKAGE_JSON_SIZE : Nat := 100 * 1024

/-- `checkFileSize` (validation.ts); `statSync` raises on a missing path. -/
def checkFileSize (fs : FS) (filePath : String) (maxSize : Nat) :
    Except String Unit :=
  if !fs.existsSync filePath then
    .error ("ENOENT: no such file or directory, stat " ++ filePath)
  else if fs.statSize filePath > maxSize then
    .error ("File exceeds maximum size of " ++ toString maxSize ++
      " bytes: " ++ filePath)
  else
    .ok ()

/-- `safeParsePackageJson` (validation.ts): size ceiling, read and parse
(`JSON.parse` failure raises), then the pure `parsePackageJsonValue`. -/
def safeParsePackageJson (fs : FS) (pkgPath : String) :
    Except String ParsedPackageJson := do
  let _ ← checkFileSize fs pkgPath MAX_PACKAGE_JSON_SIZE
  match fs.jsonContent pkgPath with
  | none => .error ("Unexpected token in JSON at " ++ pkgPath)
  | some j => parsePackageJsonValue j

/-! ## Claim C7 — traversal rejection across the validators -/

theorem containsSub_dotdot_ne_empty {s : String}
    (h : containsSub s ".." = true) : (s == "") = false := by
  cases hs : s == ""
  · rfl
  · have he : s = "" := by simpa using hs
    rw [he] at h
    exact absurd h (by decide)

/-- C7 counterexample: `sanitizeBuildDir` returns the input `"a..b"` even
though it contains `".."` — its whitelist (which excludes path separators)
only rejects the exact name `".."`.  This refutes the claim that all three
validators fail on every input containing `".."`. -/
theorem claim_C7_cex_sanitizeBuildDir_keeps_dotdot :
    containsSub "a..b" ".." = true ∧ sanitizeBuildDir "a..b" = .ok "a..b" :=
  ⟨by decide, by rfl⟩

/-- C7 (amended): every input containing `".."` is rejected by
`sanitizeDirectoryName` and `sanitizeRelativePath` (with the
traversal-flagged message whenever the input passes their character
whitelist) and by `validatePackageName` (with the traversal-flagged message
whenever the name is within the 214-character limit); `sanitizeBuildDir`,
whose whitelist excludes path separators, rejects only the exact name
`".."` and returns other whitelisted names containing `".."`. -/
theorem claim_C7_dotdot_rejected (s : String)
    (hdd : containsSub s ".." = true) :
    (∀ fn, exceptIsError (sanitizeDirectoryName s fn) = true) ∧
    (∀ fn, dirNamePattern s = true →
      sanitizeDirectoryName s fn = .error ("Invalid " ++ fn ++ ": \"" ++ s ++
        "\". Path traversal or absolute paths not allowed.")) ∧
    (∀ fn, exceptIsError (sanitizeRelativePath s fn) = true) ∧
    (∀ fn, dirNamePattern s = true →
      sanitizeRelativePath s fn = .error ("Invalid " ++ fn ++ ": \"" ++ s ++
        "\". Path traversal or absolute paths not allowed.")) ∧
    exceptIsError (validatePackageName s) = true ∧
    (s.length ≤ 214 →
      validatePackageName s =
        .error ("Invalid package name (path traversal attempt): " ++ s)) ∧
    (buildDirPattern s = true → s ≠ ".." → sanitizeBuildDir s = .ok s) := by
  have hne := containsSub_dotdot_ne_empty hdd
  refine ⟨?_, ?_, ?_, ?_, ?_, ?_, ?_⟩
  · intro fn
    unfold sanitizeDirectoryName
    split
    · rfl
    · rw [if_pos (by simp [hdd])]
      rfl
  · intro fn hpat
    unfold sanitizeDirectoryName
    rw [if_neg (by simp [hpat]), if_pos (by simp [hdd])]
  · intro fn
    unfold sanitizeRelativePath
    split
    · rfl
    · rw [if_pos (by simp [hdd])]
      rfl
  · intro fn hpat
    unfold sanitizeRelativePath
    rw [if_neg (by simp [hpat]), if_pos (by simp [hdd])]
  · unfold validatePackageName
    rw [if_neg (by simp [hne])]
    split
    · rfl
    · rw [if_pos (by simp [hdd])]
      rfl
  · intro hlen
    unfold validatePackageName
    rw [if_neg (by simp [hne]), if_neg (by omega), if_pos (by simp [hdd])]
  · intro hpat hne2
    unfold sanitizeBuildDir
    have hsdot : (s == ".") = false := by
      cases h1 : s == "."
      · rfl
      · have he : s = "." := by simpa using h1
        rw [he] at hdd
        exact absurd hdd (by decide)
    have hsdd : (s == "..") = false := by simpa using hne2
    rw [if_neg (by simp [hne]), if_neg (by simp [hpat]),
      if_neg (by simp [hsdot, hsdd])]

theorem claim_C7_dotdot_rejected_witness :
    exceptIsError (sanitizeDirectoryName "a..b" "buildDirectory") = true ∧
    sanitizeDirectoryName "a..b" "buildDirectory" =
      .error ("Invalid " ++ "buildDirectory" ++ ": \"" ++ "a..b" ++
        "\". Path traversal or absolute paths not allowed.") ∧
    exceptIsError (sanitizeRelativePath "a..b" "clientBuildDir") = true ∧
    exceptIsError (validatePackageName "a..b") = true ∧
    validatePackageName "a..b" =
      .error ("Invalid package name (path traversal attempt): " ++ "a..b") ∧
    sanitizeBuildDir "a..b" = .ok "a..b" := by
  have h := claim_C7_dotdot_rejected "a..b" (by decide)
  exact ⟨h.1 "buildDirectory", h.2.1 "buildDirectory" (by decide),
    h.2.2.1 "clientBuildDir", h.2.2.2.2.1,
    h.2.2.2.2.2.1 (by decide), h.2.2.2.2.2.2 (by decide) (by decide)⟩

/-! ## Claim C8 — prototype-pollution-safe manifest parsing -/

/-- The `dangerousKeys` array (validation.ts), in source order. -/
def dangerousKeys : List String := ["__proto__", "constructor", "prototype"]

def hasDangerousKey (fields : List (String × Json)) : Bool :=
  dangerousKeys.any (hasOwn fields)

/-- The dangerous key whose check fires first (source loop order). -/
def firstDangerousKey (fields : List (String × Json)) : String :=
  (dangerousKeys.filter (hasOwn fields)).headD ""

/-- The four whitelisted manifest keys. -/
def whitelistKeys : List String :=
  ["name", "version", "dependencies", "devDependencies"]

/-- The manifest restricted to its whitelisted keys. -/
def restrictToWhitelist (fields : List (String × Json)) :
    List (String × Json) :=
  fields.filter (fun kv => whitelistKeys.contains kv.1)

theorem filter_filter_subsume {α : Type} (p q : α → Bool) (l : List α)
    (h : ∀ a, q a = true → p a = true) :
    (l.filter p).filter q = l.filter q := by
  induction l with
  | nil => rfl
  | cons a t ih =>
    cases hp : p a with
    | true => simp [List.filter_cons, hp, ih]
    | false =>
      have hq : q a = false := by
        cases hqa : q a
        · rfl
        · exact absurd (h a hqa) (by simp [hp])
      simp [List.filter_cons, hp, hq, ih]

theorem jsLookup_restrict (fields : List (String × Json)) (k : String)
    (hk : whitelistKeys.contains k = true) :
    jsLookup (restrictToWhitelist fields) k = jsLookup fields k := by
  unfold jsLookup restrictToWhitelist
  rw [filter_filter_subsume]
  intro kv hkv
  have he : kv.1 = k := by simpa using hkv
  rw [he]
  exact hk

theorem hasOwn_restrict_false (fields : List (String × Json)) (k : String)
    (hk : (k ∈ whitelistKeys) → False) :
    hasOwn (restrictToWhitelist fields) k = false := by
  simp only [hasOwn, restrictToWhitelist]
  rw [List.any_eq_false]
  intro kv hmem
  rw [List.mem_filter] at hmem
  cases hbeq : kv.1 == k
  · simp
  · exfalso
    have he : kv.1 = k := by simpa using hbeq
    rw [he] at hmem
    exact hk (by simpa using hmem.2)

theorem hasDangerousKey_restrict (fields : List (String × Json)) :
    hasDangerousKey (restrictToWhitelist fields) = false := by
  simp [hasDangerousKey, dangerousKeys,
    hasOwn_restrict_false fields "__proto__" (by decide),
    hasOwn_restrict_false fields "constructor" (by decide),
    hasOwn_restrict_false fields "prototype" (by decide)]

/-- C8: a manifest whose parsed object declares an own `__proto__`,
`constructor` or `prototype` key makes `safeParsePackageJson` raise the
dangerous-key error (never silently dropping the key), and a manifest
without such keys parses to exactly the whitelisted
name/version/dependencies/devDependencies extraction — identical to parsing
the manifest restricted to those four keys. -/
theorem claim_C8_dangerous_keys (fs : FS) (pkgPath : String)
    (fields : List (String × Json))
    (hex : fs.existsSync pkgPath = true)
    (hsize : fs.statSize pkgPath ≤ MAX_PACKAGE_JSON_SIZE)
    (hjson : fs.jsonContent pkgPath = some (Json.obj fields)) :
    (hasDangerousKey fields = true →
      safeParsePackageJson fs pkgPath =
        .error ("Security: package.json contains dangerous key: " ++
          firstDangerousKey fields)) ∧
    (hasDangerousKey fields = false →
      safeParsePackageJson fs pkgPath =
        .ok ⟨strField fields "name", strField fields "version",
          depField fields "dependencies", depField fields "devDependencies"⟩ ∧
      safeParsePackageJson fs pkgPath =
        parsePackageJsonValue (Json.obj (restrictToWhitelist fields))) := by
  have hred : safeParsePackageJson fs pkgPath =
      parsePackageJsonValue (Json.obj fields) := by
    unfold safeParsePackageJson checkFileSize
    rw [hex, hjson]
    have hgt : ¬ fs.statSize pkgPath > MAX_PACKAGE_JSON_SIZE := by omega
    simp only [Bool.not_true, Bool.false_eq_true, if_false, hgt, if_true]
    rfl
  constructor
  · intro hd
    rw [hred]
    simp only [parsePackageJsonValue]
    by_cases h1 : hasOwn fields "__proto__" = true
    · rw [if_pos h1]
      simp [firstDangerousKey, dangerousKeys, h1]
    · rw [Bool.not_eq_true] at h1
      by_cases h2 : hasOwn fields "constructor" = true
      · rw [if_neg (by simp [h1]), if_pos h2]
        simp [firstDangerousKey, dangerousKeys, h1, h2]
      · rw [Bool.not_eq_true] at h2
        by_cases h3 : hasOwn fields "prototype" = true
        · rw [if_neg (by simp [h1]), if_neg (by simp [h2]), if_pos h3]
          simp [firstDangerousKey, dangerousKeys, h1, h2, h3]
        · rw [Bool.not_eq_true] at h3
          exfalso
          rw [hasDangerousKey, dangerousKeys] at hd
          simp [h1, h2, h3] at hd
  · intro hd
    rw [hasDangerousKey, dangerousKeys] at hd
    simp only [List.any_cons, List.any_nil, Bool.or_eq_false_iff] at hd
    obtain ⟨h1, h2, h3, -⟩ := hd
    have hok : safeParsePackageJson fs pkgPath =
        .ok ⟨strField fields "name", strField fields "version",
          depField fields "dependencies", depField fields "devDependencies"⟩ := by
      rw [hred]
      simp only [parsePackageJsonValue]
      rw [if_neg (by simp [h1]), if_neg (by simp [h2]), if_neg (by simp [h3])]
    refine ⟨hok, ?_⟩
    rw [hok]
    simp only [parsePackageJsonValue]
    have hr := hasDangerousKey_restrict fields
    rw [hasDangerousKey, dangerousKeys] at hr
    simp only [List.any_cons, List.any_nil, Bool.or_eq_false_iff] at hr
    obtain ⟨hr1, hr2, hr3, -⟩ := hr
    rw [if_neg (by simp [hr1]), if_neg (by simp [hr2]), if_neg (by simp [hr3])]
    have hw1 : whitelistKeys.contains "name" = true := by decide
    have hw2 : whitelistKeys.contains "version" = true := by decide
    have hw3 : whitelistKeys.contains "dependencies" = true := by decide
    have hw4 : whitelistKeys.contains "devDependencies" = true := by decide
    clear hred
    simp [strField, depField, jsLookup_restrict fields _ hw1,
      jsLookup_restrict fields _ hw2, jsLookup_restrict fields _ hw3,
      jsLookup_restrict fields _ hw4]

theorem claim_C8_dangerous_keys_witness :
    safeParsePackageJson
      ⟨fun _ => true, fun _ => false, fun _ => true, fun _ => 0,
        fun _ => false, fun _ => 0, fun _ => "",
        fun _ => some (Json.obj [("__proto__", Json.null)])⟩
      "proj/package.json" =
      .error ("Security: package.json contains dangerous key: " ++
        firstDangerousKey [("__proto__", Json.null)]) :=
  (claim_C8_dangerous_keys _ "proj/package.json" [("__proto__", Json.null)]
    rfl (by decide) rfl).1 rfl

/-! ## `verify.ts` — build output verification -/

/-- `BuildVerificationResult` (verify.ts). -/
structure BuildVerificationResult where
  valid : Bool
  errors : List String
  warnings : List String
  serverEntry : Option String := none
  clientDir : Option String := none
  hasNodeModules : Bool
  hasPackageJson : Bool
  deriving Repr, DecidableEq

/-- `isSymlink` helper (verify.ts): `lstatSync(path).isSymbolicLink()`, with
a thrown `lstatSync` (missing path) caught and turned into `false`.  Every
caller checks `existsSync` first, so `FS.isSymbolicLink` directly carries
the helper's value. -/
def isSymlink (fs : FS) (path : String) : Bool :=
  fs.isSymbolicLink path

/-- `isEmptyDirectory` helper (verify.ts): no visible (non-dot) entries; a
thrown `readdirSync` is caught and counts as empty. -/
def isEmptyDirectory (fs : FS) (dirPath : String) : Bool :=
  fs.visibleEntryCount dirPath == 0

/-- Step 1 of `verifyBuildOutput` (verify.ts): the server entry point. -/
def checkServerEntry (fs : FS) (projectRoot : String)
    (config : ResolvedRemixConfig) (r : BuildVerificationResult) :
    BuildVerificationResult :=
  let serverEntryPath := pathJoin projectRoot config.serverBuildPath
  if !fs.existsSync serverEntryPath then
    { r with
      valid := false
      errors := r.errors ++
        ["Server entry point not found: " ++ config.serverBuildPath ++
          "\n  Expected: " ++ serverEntryPath ++
          "\n  Run 'npm run build' or 'remix build' first."] }
  else if isSymlink fs serverEntryPath then
    { r with
      valid := false
      errors := r.errors ++
        ["Security: Server entry point is a symlink: " ++
          config.serverBuildPath] }
  else if !fs.statIsFile serverEntryPath then
    { r with
      valid := false
      errors := r.errors ++
        ["Server entry point is not a file: " ++ config.serverBuildPath] }
  else if fs.statSize serverEntryPath == 0 then
    { r with
      valid := false
      errors := r.errors ++
        ["Server entry point is empty: " ++ config.serverBuildPath] }
  else
    { r with serverEntry := some serverEntryPath }

/-- Step 2 of `verifyBuildOutput` (verify.ts): the client assets
directory. -/
def checkClientDir (fs : FS) (projectRoot : String)
    (config : ResolvedRemixConfig) (r : BuildVerificationResult) :
    BuildVerificationResult :=
  let clientDirPath := pathJoin projectRoot config.clientBuildDir
  if !fs.existsSync clientDirPath then
    { r with
      valid := false
      errors := r.errors ++
        ["Client assets directory not found: " ++ config.clientBuildDir ++
          "\n  Expected: " ++ clientDirPath ++
          "\n  Run 'npm run build' or 'remix build' first."] }
  else if isSymlink fs clientDirPath then
    { r with
      valid := false
      errors := r.errors ++
        ["Security: Client assets directory is a symlink: " ++
          config.clientBuildDir] }
  else if !fs.lstatIsDirectory clientDirPath then
    { r with
      valid := false
      errors := r.errors ++
        ["Client assets path is not a directory: " ++ config.clientBuildDir] }
  else if isEmptyDirectory fs clientDirPath then
    { r with
      warnings := r.warnings ++
        ["Client assets directory is empty: " ++ config.clientBuildDir]
      clientDir := some clientDirPath }
  else
    { r with clientDir := some clientDirPath }

/-- Step 3 of `verifyBuildOutput` (verify.ts): the directory containing the
server entry. -/
def checkServerDir (fs : FS) (projectRoot : String)
    (config : ResolvedRemixConfig) (r : BuildVerificationResult) :
    BuildVerificationResult :=
  let serverDirRelative :=
    if containsSub config.serverBuildPath "/" then
      takeBeforeLastSlash config.serverBuildPath
    else "."
  let serverDirPath := pathJoin projectRoot serverDirRelative
  if !fs.existsSync serverDirPath then
    { r with
      valid := false
      errors := r.errors ++
        ["Server build directory not found: " ++ serverDirRelative ++
          "\n" ++ "  Expected: " ++ serverDirPath] }
  else if isSymlink fs serverDirPath then
    { r with
      valid := false
      errors := r.errors ++
        ["Security: Server directory is a symlink: " ++ serverDirRelative] }
  else
    r

/-- Step 4 of `verifyBuildOutput` (verify.ts): package.json. -/
def checkPackageJson (fs : FS) (projectRoot : String)
    (r : BuildVerificationResult) : BuildVerificationResult :=
  let packageJsonPath := pathJoin projectRoot "package.json"
  if !fs.existsSync packageJsonPath then
    { r with
      valid := false
      errors := r.errors ++ ["package.json not found in project root"] }
  else if isSymlink fs packageJsonPath then
    { r with
      valid := false
      errors := r.errors ++ ["Security: package.json is a symlink"] }
  else
    { r with hasPackageJson := true }

/-- Step 5 of `verifyBuildOutput` (verify.ts): node_modules (warnings
only). -/
def checkNodeModules (fs : FS) (projectRoot : String)
    (r : BuildVerificationResult) : BuildVerificationResult :=
  let nodeModulesPath := pathJoin projectRoot "node_modules"
  if !fs.existsSync nodeModulesPath then
    { r with warnings := r.warnings ++
        ["node_modules not found. Dependencies will need to be installed before deployment."] }
  else if isSymlink fs nodeModulesPath then
    { r with
      warnings := r.warnings ++
        ["node_modules is a symlink. This may cause issues with deployment."]
      hasNodeModules := true }
  else
    { r with hasNodeModules := true }

/-- `problematicPaths` (verify.ts, step 6). -/
def problematicPaths : List String :=
  [".env", ".env.local", ".env.development", ".env.development.local"]

/-- Step 6 of `verifyBuildOutput` (verify.ts): stray environment files in
the build output (warnings only). -/
def checkProblematicFiles (fs : FS) (projectRoot : String)
    (config : ResolvedRemixConfig) (r : BuildVerificationResult) :
    BuildVerificationResult :=
  problematicPaths.foldl
    (fun acc problematic =>
      let checkPath :=
        pathJoin (pathJoin projectRoot config.buildDirectory) problematic
      if fs.existsSync checkPath then
        { acc with warnings := acc.warnings ++
            ["Found " ++ problematic ++
              " in build output. This file should not be deployed."] }
      else acc)
    r

/-- `verifyBuildOutput` (verify.ts): the six checks in source order applied
to the fresh initial result. -/
def verifyBuildOutput (fs : FS) (projectRoot : String)
    (config : ResolvedRemixConfig) : BuildVerificationResult :=
  checkProblematicFiles fs projectRoot config
    (checkNodeModules fs projectRoot
      (checkPackageJson fs projectRoot
        (checkServerDir fs projectRoot config
          (checkClientDir fs projectRoot config
            (checkServerEntry fs projectRoot config
              ⟨true, [], [], none, none, false, false⟩)))))

/-! ### Per-check error and warning views

Each view re-states, from the same conditions, exactly the list of fatal
errors (resp. warnings) that the corresponding check appends. -/

/-- The errors check 1 contributes. -/
def serverEntryErrors (fs : FS) (projectRoot : String)
    (config : ResolvedRemixConfig) : List String :=
  let serverEntryPath := pathJoin projectRoot config.serverBuildPath
  if !fs.existsSync serverEntryPath then
    ["Server entry point not found: " ++ config.serverBuildPath ++
      "\n  Expected: " ++ serverEntryPath ++
      "\n  Run 'npm run build' or 'remix build' first."]
  else if isSymlink fs serverEntryPath then
    ["Security: Server entry point is a symlink: " ++ config.serverBuildPath]
  else if !fs.statIsFile serverEntryPath then
    ["Server entry point is not a file: " ++ config.serverBuildPath]
  else if fs.statSize serverEntryPath == 0 then
    ["Server entry point is empty: " ++ config.serverBuildPath]
  else
    []

/-- The errors check 2 contributes. -/
def clientDirErrors (fs : FS) (projectRoot : String)
    (config : ResolvedRemixConfig) : List String :=
  let clientDirPath := pathJoin projectRoot config.clientBuildDir
  if !fs.existsSync clientDirPath then
    ["Client assets directory not found: " ++ config.clientBuildDir ++
      "\n  Expected: " ++ clientDirPath ++
      "\n  Run 'npm run build' or 'remix build' first."]
  else if isSymlink fs clientDirPath then
    ["Security: Client assets directory is a symlink: " ++
      config.clientBuildDir]
  else if !fs.lstatIsDirectory clientDirPath then
    ["Client assets path is not a directory: " ++ config.clientBuildDir]
  else
    []

/-- The errors check 3 contributes. -/
def serverDirErrors (fs : FS) (projectRoot : String)
    (config : ResolvedRemixConfig) : List String :=
  let serverDirRelative :=
    if containsSub config.serverBuildPath "/" then
      takeBeforeLastSlash config.serverBuildPath
    else "."
  let serverDirPath := pathJoin projectRoot serverDirRelative
  if !fs.existsSync serverDirPath then
    ["Server build directory not found: " ++ serverDirRelative ++
      "\n" ++ "  Expected: " ++ serverDirPath]
  else if isSymlink fs serverDirPath then
    ["Security: Server directory is a symlink: " ++ serverDirRelative]
  else
    []

/-- The errors check 4 contributes. -/
def packageJsonErrors (fs : FS) (projectRoot : String) : List String :=
  let packageJsonPath := pathJoin projectRoot "package.json"
  if !fs.existsSync packageJsonPath then
    ["package.json not found in project root"]
  else if isSymlink fs packageJsonPath then
    ["Security: package.json is a symlink"]
  else
    []

theorem checkServerEntry_spec (fs : FS) (projectRoot : String)
    (config : ResolvedRemixConfig) (r : BuildVerificationResult) :
    (checkServerEntry fs projectRoot config r).errors =
      r.errors ++ serverEntryErrors fs projectRoot config ∧
    (checkServerEntry fs projectRoot config r).valid =
      (r.valid && (serverEntryErrors fs projectRoot config).isEmpty) ∧
    (checkServerEntry fs projectRoot config r).warnings = r.warnings ∧
    (checkServerEntry fs projectRoot config r).serverEntry =
      (if serverEntryErrors fs projectRoot config = [] then
        some (pathJoin projectRoot config.serverBuildPath)
      else r.serverEntry) ∧
    (checkServerEntry fs projectRoot config r).clientDir = r.clientDir ∧
    (checkServerEntry fs projectRoot config r).hasNodeModules =
      r.hasNodeModules ∧
    (checkServerEntry fs projectRoot config r).hasPackageJson =
      r.hasPackageJson := by
  simp only [checkServerEntry, serverEntryErrors, Bool.not_eq_true']
  split_ifs <;> simp_all

theorem checkClientDir_spec (fs : FS) (projectRoot : String)
    (config : ResolvedRemixConfig) (r : BuildVerificationResult) :
    (checkClientDir fs projectRoot config r).errors =
      r.errors ++ clientDirErrors fs projectRoot config ∧
    (checkClientDir fs projectRoot config r).valid =
      (r.valid && (clientDirErrors fs projectRoot config).isEmpty) ∧
    (checkClientDir fs projectRoot config r).clientDir =
      (if clientDirErrors fs projectRoot config = [] then
        some (pathJoin projectRoot config.clientBuildDir)
      else r.clientDir) ∧
    (checkClientDir fs projectRoot config r).serverEntry = r.serverEntry ∧
    (checkClientDir fs projectRoot config r).hasNodeModules =
      r.hasNodeModules ∧
    (checkClientDir fs projectRoot config r).hasPackageJson =
      r.hasPackageJson := by
  simp only [checkClientDir, clientDirErrors, Bool.not_eq_true']
  split_ifs <;> simp_all

theorem checkServerDir_spec (fs : FS) (projectRoot : String)
    (config : ResolvedRemixConfig) (r : BuildVerificationResult) :
    (checkServerDir fs projectRoot config r).errors =
      r.errors ++ serverDirErrors fs projectRoot config ∧
    (checkServerDir fs projectRoot config r).valid =
      (r.valid && (serverDirErrors fs projectRoot config).isEmpty) ∧
    (checkServerDir fs projectRoot config r).warnings = r.warnings ∧
    (checkServerDir fs projectRoot config r).serverEntry = r.serverEntry ∧
    (checkServerDir fs projectRoot config r).clientDir = r.clientDir ∧
    (checkServerDir fs projectRoot config r).hasNodeModules =
      r.hasNodeModules ∧
    (checkServerDir fs projectRoot config r).hasPackageJson =
      r.hasPackageJson := by
  simp only [checkServerDir, serverDirErrors, Bool.not_eq_true']
  split_ifs <;> simp_all

theorem checkPackageJson_spec (fs : FS) (projectRoot : String)
    (r : BuildVerificationResult) :
    (checkPackageJson fs projectRoot r).errors =
      r.errors ++ packageJsonErrors fs projectRoot ∧
    (checkPackageJson fs projectRoot r).valid =
      (r.valid && (packageJsonErrors fs projectRoot).isEmpty) ∧
    (checkPackageJson fs projectRoot r).warnings = r.warnings ∧
    (checkPackageJson fs projectRoot r).serverEntry = r.serverEntry ∧
    (checkPackageJson fs projectRoot r).clientDir = r.clientDir ∧
    (checkPackageJson fs projectRoot r).hasNodeModules = r.hasNodeModules := by
  simp only [checkPackageJson, packageJsonErrors, Bool.not_eq_true']
  split_ifs <;> simp_all

theorem checkNodeModules_spec (fs : FS) (projectRoot : String)
    (r : BuildVerificationResult) :
    (checkNodeModules fs projectRoot r).errors = r.errors ∧
    (checkNodeModules fs projectRoot r).valid = r.valid ∧
    (checkNodeModules fs projectRoot r).serverEntry = r.serverEntry ∧
    (checkNodeModules fs projectRoot r).clientDir = r.clientDir ∧
    (checkNodeModules fs projectRoot r).hasPackageJson = r.hasPackageJson := by
  simp only [checkNodeModules, Bool.not_eq_true']
  split_ifs <;> simp_all

theorem checkProblematicFiles_spec (fs : FS) (projectRoot : String)
    (config : ResolvedRemixConfig) (r : BuildVerificationResult) :
    (checkProblematicFiles fs projectRoot config r).errors = r.errors ∧
    (checkProblematicFiles fs projectRoot config r).valid = r.valid ∧
    (checkProblematicFiles fs projectRoot config r).serverEntry =
      r.serverEntry ∧
    (checkProblematicFiles fs projectRoot config r).clientDir = r.clientDir ∧
    (checkProblematicFiles fs projectRoot config r).hasNodeModules =
      r.hasNodeModules ∧
    (checkProblematicFiles fs projectRoot config r).hasPackageJson =
      r.hasPackageJson := by
  unfold checkProblematicFiles problematicPaths
  simp only [List.foldl]
  split_ifs <;> simp

theorem listIsEmpty_append {α : Type} (l l2 : List α) :
    (l ++ l2).isEmpty = (l.isEmpty && l2.isEmpty) := by
  cases l <;> simp

/-- Composite characterization of a `verifyBuildOutput` report: the errors
are the four fatal checks' contributions concatenated in source order,
`valid` is their joint emptiness, and the optional resolved paths are set
exactly when their own check passed. -/
theorem verifyBuildOutput_spec (fs : FS) (projectRoot : String)
    (config : ResolvedRemixConfig) :
    (verifyBuildOutput fs projectRoot config).errors =
      serverEntryErrors fs projectRoot config ++
        (clientDirErrors fs projectRoot config ++
          (serverDirErrors fs projectRoot config ++
            packageJsonErrors fs projectRoot)) ∧
    (verifyBuildOutput fs projectRoot config).valid =
      ((serverEntryErrors fs projectRoot config).isEmpty &&
        ((clientDirErrors fs projectRoot config).isEmpty &&
          ((serverDirErrors fs projectRoot config).isEmpty &&
            (packageJsonErrors fs projectRoot).isEmpty))) ∧
    (verifyBuildOutput fs projectRoot config).serverEntry =
      (if serverEntryErrors fs projectRoot config = [] then
        some (pathJoin projectRoot config.serverBuildPath)
      else none) ∧
    (verifyBuildOutput fs projectRoot config).clientDir =
      (if clientDirErrors fs projectRoot config = [] then
        some (pathJoin projectRoot config.clientBuildDir)
      else none) := by
  unfold verifyBuildOutput
  generalize hr0 : (⟨true, [], [], none, none, false, false⟩ :
    BuildVerificationResult) = r0
  generalize hr1 : checkServerEntry fs projectRoot config r0 = r1
  generalize hr2 : checkClientDir fs projectRoot config r1 = r2
  generalize hr3 : checkServerDir fs projectRoot config r2 = r3
  generalize hr4 : checkPackageJson fs projectRoot r3 = r4
  generalize hr5 : checkNodeModules fs projectRoot r4 = r5
  have h1 := checkServerEntry_spec fs projectRoot config r0
  rw [hr1] at h1
  have h2 := checkClientDir_spec fs projectRoot config r1
  rw [hr2] at h2
  have h3 := checkServerDir_spec fs projectRoot config r2
  rw [hr3] at h3
  have h4 := checkPackageJson_spec fs projectRoot r3
  rw [hr4] at h4
  have h5 := checkNodeModules_spec fs projectRoot r4
  rw [hr5] at h5
  have h6 := checkProblematicFiles_spec fs projectRoot config r5
  have hr0e : r0.errors = [] := by rw [← hr0]
  have hr0v : r0.valid = true := by rw [← hr0]
  have hr0se : r0.serverEntry = none := by rw [← hr0]
  have hr0cd : r0.clientDir = none := by rw [← hr0]
  refine ⟨?_, ?_, ?_, ?_⟩
  · rw [h6.1, h5.1, h4.1, h3.1, h2.1, h1.1, hr0e]
    simp [List.append_assoc]
  · rw [h6.2.1, h5.2.1, h4.2.1, h3.2.1, h2.2.1, h1.2.1, hr0v]
    simp [Bool.and_assoc]
  · rw [h6.2.2.1, h5.2.2.1, h4.2.2.2.1, h3.2.2.2.1, h2.2.2.2.1,
      h1.2.2.2.1, hr0se]
  · rw [h6.2.2.2.1, h5.2.2.2.1, h4.2.2.2.2.1, h3.2.2.2.2.1, h2.2.2.1,
      h1.2.2.2.2.1, hr0cd]

/-! ## Claims C1, C9, C10 — build verification -/

/-- C1: in every `verifyBuildOutput` report, `valid` equals the emptiness of
`errors` (so `valid` is false iff `errors` is non-empty), and the steps
that only append warnings — the empty-client-directory case of check 2, the
node_modules check and the stray-env-file scan — never change `valid`. -/
theorem claim_C1_valid_iff_errors (fs : FS) (projectRoot : String)
    (config : ResolvedRemixConfig) :
    (verifyBuildOutput fs projectRoot config).valid =
      (verifyBuildOutput fs projectRoot config).errors.isEmpty ∧
    (∀ r, (checkClientDir fs projectRoot config r).valid =
      (r.valid && (clientDirErrors fs projectRoot config).isEmpty)) ∧
    (∀ r, (checkNodeModules fs projectRoot r).valid = r.valid) ∧
    (∀ r, (checkProblematicFiles fs projectRoot config r).valid = r.valid) := by
  obtain ⟨he, hv, -, -⟩ := verifyBuildOutput_spec fs projectRoot config
  refine ⟨?_, fun r => (checkClientDir_spec fs projectRoot config r).2.1,
    fun r => (checkNodeModules_spec fs projectRoot r).2.1,
    fun r => (checkProblematicFiles_spec fs projectRoot config r).2.1⟩
  rw [he, hv]
  simp [listIsEmpty_append]

/-- C9 counterexample: with the server entry missing but the client assets
directory present and healthy, the report has `valid = false` while
`clientDir` is still present.  This refutes the claim that both optional
path fields are absent whenever `valid` is false. -/
theorem claim_C9_cex_clientDir_present_when_invalid :
    (verifyBuildOutput
      ⟨fun p => p == "p/build/client" || p == "p/package.json" ||
          p == "p/node_modules" || p == "p/build/server",
        fun _ => false, fun _ => true, fun _ => 1,
        fun p => p == "p/build/client", fun _ => 1, fun _ => "",
        fun _ => none⟩
      "p" DEFAULTS).valid = false ∧
    (verifyBuildOutput
      ⟨fun p => p == "p/build/client" || p == "p/package.json" ||
          p == "p/node_modules" || p == "p/build/server",
        fun _ => false, fun _ => true, fun _ => 1,
        fun p => p == "p/build/client", fun _ => 1, fun _ => "",
        fun _ => none⟩
      "p" DEFAULTS).clientDir = some "p/build/client" := by
  exact ⟨by rfl, by rfl⟩

/-- C9 (amended): each optional resolved path is present exactly when its
own check found the artifact valid — `serverEntry` iff check 1 recorded no
error, `clientDir` iff check 2 recorded no error — so an overall-invalid
report may still carry whichever of the two was individually valid. -/
theorem claim_C9_optional_paths_per_check (fs : FS) (projectRoot : String)
    (config : ResolvedRemixConfig) :
    (verifyBuildOutput fs projectRoot config).serverEntry =
      (if serverEntryErrors fs projectRoot config = [] then
        some (pathJoin projectRoot config.serverBuildPath)
      else none) ∧
    (verifyBuildOutput fs projectRoot config).clientDir =
      (if clientDirErrors fs projectRoot config = [] then
        some (pathJoin projectRoot config.clientBuildDir)
      else none) := by
  obtain ⟨-, -, h3, h4⟩ := verifyBuildOutput_spec fs projectRoot config
  exact ⟨h3, h4⟩

/-- C10 counterexample: a project where both the client-assets check and the
server-containing-directory check fail (client directory missing, server
directory a symlink).  The returned errors list the client-assets error
first: the containing-directory error does not precede it, refuting the
claimed order. -/
theorem claim_C10_cex_client_error_first :
    (verifyBuildOutput
      ⟨fun p => p == "p/build/server/index.js" || p == "p/build/server" ||
          p == "p/package.json" || p == "p/node_modules",
        fun p => p == "p/build/server", fun _ => true, fun _ => 1,
        fun _ => false, fun _ => 1, fun _ => "", fun _ => none⟩
      "p" DEFAULTS).errors =
      ["Client assets directory not found: build/client\n  Expected: p/build/client\n  Run 'npm run build' or 'remix build' first.",
        "Security: Server directory is a symlink: build/server"] := by
  rfl

/-- C10 (amended): all four fatal checks always run (no short-circuiting)
and contribute their errors in the code's order — server entry, then client
assets directory, then the server entry's containing directory, then the
manifest — so when both the containing-directory check and the
client-assets check fail, both errors are present and the client-assets
error precedes the containing-directory error. -/
theorem claim_C10_errors_in_check_order (fs : FS) (projectRoot : String)
    (config : ResolvedRemixConfig) :
    (verifyBuildOutput fs projectRoot config).errors =
      serverEntryErrors fs projectRoot config ++
        (clientDirErrors fs projectRoot config ++
          (serverDirErrors fs projectRoot config ++
            packageJsonErrors fs projectRoot)) :=
  (verifyBuildOutput_spec fs projectRoot config).1

/-! ## `validation.ts` — run configuration and the dependency guard -/

/-- `RunConfig` (types.ts): the caller-supplied partial run configuration.
JS numbers are modelled as integers, on which `Math.floor` is the
identity; fractional inputs are outside the model. -/
structure RunConfig where
  minInstances : Option Int := none
  maxInstances : Option Int := none
  concurrency : Option Int := none
  cpu : Option Int := none
  memoryMiB : Option Int := none
  deriving Repr, DecidableEq

/-- `Required<RunConfig>`. -/
structure RunConfigFull where
  minInstances : Int
  maxInstances : Int
  concurrency : Int
  cpu : Int
  memoryMiB : Int
  deriving Repr, DecidableEq

/-- `validateRunConfig` (validation.ts): defaults merged under the caller's
values, range checks, then `Math.floor` (the identity on integers). -/
def validateRunConfig (config : RunConfig) : Except String RunConfigFull :=
  let merged : RunConfigFull :=
    { minInstances := config.minInstances.getD 0
      maxInstances := config.maxInstances.getD 10
      concurrency := config.concurrency.getD 80
      cpu := config.cpu.getD 1
      memoryMiB := config.memoryMiB.getD 512 }
  if merged.minInstances < 0 || merged.minInstances > 100 then
    .error ("minInstances must be between 0 and 100, got: " ++
      toString merged.minInstances)
  else if merged.maxInstances < 1 || merged.maxInstances > 1000 then
    .error ("maxInstances must be between 1 and 1000, got: " ++
      toString merged.maxInstances)
  else if merged.minInstances > merged.maxInstances then
    .error ("minInstances (" ++ toString merged.minInstances ++
      ") cannot exceed maxInstances (" ++ toString merged.maxInstances ++ ")")
  else if merged.concurrency < 1 || merged.concurrency > 1000 then
    .error ("concurrency must be between 1 and 1000, got: " ++
      toString merged.concurrency)
  else if merged.cpu < 1 || merged.cpu > 8 then
    .error ("cpu must be between 1 and 8, got: " ++ toString merged.cpu)
  else if merged.memoryMiB < 128 || merged.memoryMiB > 32768 then
    .error ("memoryMiB must be between 128 and 32768, got: " ++
      toString merged.memoryMiB)
  else
    .ok merged

/-- `MAX_DEV_DEPENDENCIES` (validation.ts). -/
def MAX_DEV_DEPENDENCIES : Nat := 1000

/-- `getNodeModulesPath` (validation.ts). -/
def getNodeModulesPath (projectRoot packageName : String) : String :=
  pathJoin (pathJoin projectRoot "node_modules") packageName

/-- The runtime type of the second argument of
`assertNoDevDependenciesInstalled`, as seen by its `typeof` guard:
`undefined`, a boolean, or any other value (for which `typeof` reports a
name such as "object" — the case of an object literal). -/
inductive DevFlagArg where
  | undef
  | boolean (b : Bool)
  | object
  deriving Repr, DecidableEq

/-- The `for (const dep of devDeps) validatePackageName(dep)` loop. -/
def validateAllPackageNames : List String → Except String Unit
  | [] => .ok ()
  | d :: rest => do
    let _ ← validatePackageName d
    validateAllPackageNames rest

/-- The `devDeps.filter(...)` loop of `assertNoDevDependenciesInstalled`:
which declared dev dependencies are installed, raising on an escaped path
or a symlinked package. -/
def devPresentFilter (fs : FS) (projectRoot : String) :
    List String → Except String (List String)
  | [] => .ok []
  | dep :: rest =>
    let depPath := getNodeModulesPath projectRoot dep
    let nodeModulesBase := pathJoin projectRoot "node_modules"
    if !jsStartsWith depPath nodeModulesBase then
      .error ("Security: package path escaped node_modules: " ++ dep)
    else if !fs.existsSync depPath then
      devPresentFilter fs projectRoot rest
    else if fs.isSymbolicLink depPath then
      .error ("Security: devDependency '" ++ dep ++
        "' is a symlink - potential attack vector")
    else do
      let tail ← devPresentFilter fs projectRoot rest
      pure (dep :: tail)

/-- `assertNoDevDependenciesInstalled` (validation.ts).  Its declared
signature takes `allowDevDependencies?: boolean`; the runtime guard rejects
any defined non-boolean argument.  The `console.warn` of the `true` branch
is a side effect only. -/
def assertNoDevDependenciesInstalled (fs : FS) (projectRoot : String)
    (allowDevDependencies : DevFlagArg) : Except String Unit :=
  match allowDevDependencies with
  | .object => .error "allowDevDependencies must be a boolean, got: object"
  | .boolean true => .ok ()
  | _ => do
    let pkgPath := pathJoin projectRoot "package.json"
    let pkg ← safeParsePackageJson fs pkgPath
    let devDeps := (pkg.devDependencies.getD []).map Prod.fst
    if devDeps.length == 0 then
      .ok ()
    else if devDeps.length > MAX_DEV_DEPENDENCIES then
      .error ("Security: Too many devDependencies (" ++
        toString devDeps.length ++ " > " ++ toString MAX_DEV_DEPENDENCIES ++
        "). This may indicate a malicious package.json.")
    else do
      let _ ← validateAllPackageNames devDeps
      let devPresent ← devPresentFilter fs projectRoot devDeps
      if devPresent.length > 0 then
        .error ("Security: " ++ toString devPresent.length ++
          " devDependenc" ++
          (if devPresent.length == 1 then "y" else "ies") ++
          " present in node_modules. Run \"npm ci --omit=dev\" before bundling or set allowDevDependencies=true.")
      else
        .ok ()

/-! ## `version.ts` — version resolution -/

/-- `MAX_PACKAGE_JSON_SIZE` of version.ts (50 KB), under a distinct Lean
name since validation.ts declares its own 100 KB constant. -/
def VERSION_MAX_PACKAGE_JSON_SIZE : Nat := 50 * 1024

/-- `safeReadPackageJson` (version.ts): `none` (null) on a missing path,
symlink, oversize file, parse failure or non-object; otherwise just the
version field. -/
def safeReadPackageJson (fs : FS) (pkgPath : String) :
    Option (Option String) :=
  if !fs.existsSync pkgPath then none
  else if fs.isSymbolicLink pkgPath then none
  else if fs.statSize pkgPath > VERSION_MAX_PACKAGE_JSON_SIZE then none
  else
    match fs.jsonContent pkgPath with
    | none => none
    | some (.obj fields) => some (strField fields "version")
    | some _ => none

/-- `getResolvedPackageVersion` (version.ts). -/
def getResolvedPackageVersion (fs : FS) (projectRoot packageName : String) :
    Option String :=
  if packageName == "" then none
  else if containsSub packageName ".." ||
      containsSub packageName (String.mk [backslashChar]) then none
  else
    let pkgPath :=
      pathJoin (pathJoin (pathJoin projectRoot "node_modules") packageName)
        "package.json"
    let nodeModulesBase := pathJoin projectRoot "node_modules"
    if !jsStartsWith pkgPath nodeModulesBase then none
    else
      match safeReadPackageJson fs pkgPath with
      | none => none
      | some v => v

/-- The candidate Remix packages of `getResolvedRemixVersion`
(version.ts), in priority order. -/
def remixPackages : List String :=
  ["@remix-run/node", "@remix-run/react", "@remix-run/dev",
    "@remix-run/serve", "@remix-run/express"]

/-- The probing loop of `getResolvedRemixVersion`: the first truthy
version found. -/
def firstResolvedVersion (fs : FS) (projectRoot : String) :
    List String → Option String
  | [] => none
  | pkg :: rest =>
    match getResolvedPackageVersion fs projectRoot pkg with
    | some v =>
      if v == "" then firstResolvedVersion fs projectRoot rest else some v
    | none => firstResolvedVersion fs projectRoot rest

/-- `getResolvedRemixVersion` (version.ts). -/
def getResolvedRemixVersion (fs : FS) (projectRoot : String) :
    Option String :=
  firstResolvedVersion fs projectRoot remixPackages

/-- `getAdapterVersion` (version.ts): `pkg?.version || "0.0.0"`. -/
def getAdapterVersion (fs : FS) (adapterRoot : String) : String :=
  let pkgPath := pathJoin adapterRoot "package.json"
  match safeReadPackageJson fs pkgPath with
  | some (some v) => if v == "" then "0.0.0" else v
  | _ => "0.0.0"

/-! ## `config.ts` — config-file probing and pattern extraction -/

/-- `MAX_CONFIG_FILE_SIZE` (config.ts): 100 KB. -/
def MAX_CONFIG_FILE_SIZE : Nat := 100 * 1024

/-- `safeReadFile` (config.ts): `none` when the file is missing or oversize
(the oversize branch warns to the console and falls back). -/
def safeReadFile (fs : FS) (filePath : String) : Option String :=
  if !fs.existsSync filePath then none
  else if fs.statSize filePath > MAX_CONFIG_FILE_SIZE then none
  else some (fs.readFile filePath)

/-- The quote characters of the extraction patterns. -/
def isQuoteChar (c : Char) : Bool :=
  c == doubleQuoteChar || c == singleQuoteChar || c == backtickChar

/-- Match, at the start of `s`, the tail of the extraction regex after the
key: optional whitespace, a colon, optional whitespace, a quote character,
one or more captured non-quote characters, a quote character. -/
def matchAfterKey (s : List Char) : Option String :=
  match s.dropWhile Char.isWhitespace with
  | ':' :: s2 =>
    match s2.dropWhile Char.isWhitespace with
    | q :: s4 =>
      if isQuoteChar q then
        let cap := s4.takeWhile (fun c => !isQuoteChar c)
        match s4.dropWhile (fun c => !isQuoteChar c) with
        | _ :: _ => if cap.isEmpty then none else some (String.mk cap)
        | [] => none
      else none
    | [] => none
  | _ => none

/-- First match of the config.ts extraction regex for the given key in the
content (JS `content.match(...)`: scan left to right, at each position
requiring the key followed by `matchAfterKey`). -/
def matchKeyPattern (key : List Char) : List Char → Option String
  | [] => none
  | c :: cs =>
    if listIsPrefix key (c :: cs) then
      match matchAfterKey ((c :: cs).drop key.length) with
      | some cap => some cap
      | none => matchKeyPattern key cs
    else matchKeyPattern key cs

/-- `extractViteRemixConfig` (config.ts). -/
def extractViteRemixConfig (content : String) : PartialRemixConfig :=
  let config : PartialRemixConfig := {}
  let config :=
    match matchKeyPattern "buildDirectory".toList content.toList with
    | some v => { config with buildDirectory := some v }
    | none => config
  let config :=
    match matchKeyPattern "serverBuildFile".toList content.toList with
    | some v => { config with serverBuildFile := some v }
    | none => config
  let config :=
    match matchKeyPattern "appDirectory".toList content.toList with
    | some v => { config with appDirectory := some v }
    | none => config
  config

/-- `extractLegacyRemixConfig` (config.ts). -/
def extractLegacyRemixConfig (content : String) : PartialRemixConfig :=
  let config : PartialRemixConfig := {}
  let config :=
    match matchKeyPattern "serverBuildPath".toList content.toList with
    | some v => { config with serverBuildPath := some v }
    | none => config
  let config :=
    match matchKeyPattern "assetsBuildDirectory".toList content.toList with
    | some v => { config with clientBuildDir := some v }
    | none => config
  let config :=
    match matchKeyPattern "appDirectory".toList content.toList with
    | some v => { config with appDirectory := some v }
    | none => config
  config

/-- `Object.keys(extractedConfig).length` for an extracted partial
config. -/
def extractedKeyCount (c : PartialRemixConfig) : Nat :=
  (if c.buildDirectory.isSome then 1 else 0) +
    (if c.serverBuildFile.isSome then 1 else 0) +
    (if c.serverBuildPath.isSome then 1 else 0) +
    (if c.clientBuildDir.isSome then 1 else 0) +
    (if c.appDirectory.isSome then 1 else 0)

/-- `viteConfigFiles` (config.ts). -/
def viteConfigFiles : List String :=
  ["vite.config.ts", "vite.config.js", "vite.config.mjs"]

/-- `legacyConfigFiles` (config.ts). -/
def legacyConfigFiles : List String :=
  ["remix.config.ts", "remix.config.js", "remix.config.mjs"]

/-- The Vite-config probing loop of `resolveRemixConfig`, threading
`(extractedConfig, sawViteConfig, parsedFromViteConfig)`; a read that
yields an empty string is falsy and skipped, a non-empty extraction breaks
the loop. -/
def probeViteConfigs (fs : FS) (projectRoot : String) :
    List String → PartialRemixConfig × Bool × Bool →
      PartialRemixConfig × Bool × Bool
  | [], acc => acc
  | configFile :: rest, (extracted, saw, parsed) =>
    match safeReadFile fs (pathJoin projectRoot configFile) with
    | some content =>
      if content == "" then
        probeViteConfigs fs projectRoot rest (extracted, saw, parsed)
      else
        let e2 := extractViteRemixConfig content
        if extractedKeyCount e2 > 0 then (e2, true, true)
        else probeViteConfigs fs projectRoot rest (e2, true, parsed)
    | none => probeViteConfigs fs projectRoot rest (extracted, saw, parsed)

/-- The legacy-config probing loop of `resolveRemixConfig`. -/
def probeLegacyConfigs (fs : FS) (projectRoot : String) :
    List String → PartialRemixConfig → PartialRemixConfig
  | [], e => e
  | configFile :: rest, e =>
    match safeReadFile fs (pathJoin projectRoot configFile) with
    | some content =>
      if content == "" then probeLegacyConfigs fs projectRoot rest e
      else
        let e2 := extractLegacyRemixConfig content
        if extractedKeyCount e2 > 0 then e2
        else probeLegacyConfigs fs projectRoot rest e2
    | none => probeLegacyConfigs fs projectRoot rest e

/-- `resolveRemixConfig` (config.ts).  The static-extraction console
warning is a side effect only. -/
def resolveRemixConfig (fs : FS) (projectRoot : String) :
    Except String ResolvedRemixConfig :=
  let probed := probeViteConfigs fs projectRoot viteConfigFiles ({}, false, false)
  let extracted := probed.1
  let extracted :=
    if extractedKeyCount extracted == 0 then
      probeLegacyConfigs fs projectRoot legacyConfigFiles extracted
    else extracted
  computeDerivedPaths extracted

/-! ## `verify.ts` — result formatting -/

/-- `formatVerificationResult` (verify.ts). -/
def formatVerificationResult (result : BuildVerificationResult) : String :=
  let lines : List String :=
    [if result.valid then "✅ Build verification passed"
     else "❌ Build verification failed"]
  let lines :=
    if result.errors.length > 0 then
      lines ++ ["\nErrors:"] ++
        result.errors.map (fun error =>
          "  • " ++ String.intercalate "\n    " (error.splitOn "\n"))
    else lines
  let lines :=
    if result.warnings.length > 0 then
      lines ++ ["\nWarnings:"] ++
        result.warnings.map (fun warning => "  ⚠ " ++ warning)
    else lines
  let lines :=
    if result.valid then
      lines ++ ["\nVerified paths:"] ++
        (match result.serverEntry with
         | some s => if s == "" then [] else ["  • Server: " ++ s]
         | none => []) ++
        (match result.clientDir with
         | some c => if c == "" then [] else ["  • Client: " ++ c]
         | none => []) ++
        ["  • package.json: " ++
          (if result.hasPackageJson then "found" else "missing"),
          "  • node_modules: " ++
            (if result.hasNodeModules then "found" else "missing")]
    else lines
  String.intercalate "\n" lines

/-! ## `bundle.ts` — bundle generation -/

/-- The `runConfig` block of `BundleYaml` (types.ts). -/
structure BundleRunConfig where
  runCommand : String
  concurrency : Int
  cpu : Int
  memoryMiB : Int
  minInstances : Int
  maxInstances : Int
  deriving Repr, DecidableEq

/-- A named file set of `outputFiles`; `includeFiles` is the `include`
list of the TS type (`include` is a Lean keyword). -/
structure IncludeSet where
  includeFiles : List String
  deriving Repr, DecidableEq

/-- The `outputFiles` block of `BundleYaml` (types.ts); `staticAssets` is
optional. -/
structure BundleOutputFiles where
  serverApp : IncludeSet
  staticAssets : Option IncludeSet := none
  deriving Repr, DecidableEq

/-- The `metadata` block of `BundleYaml` (types.ts); `frameworkVersion` is
optional. -/
structure BundleMetadata where
  adapterPackageName : String
  adapterVersion : String
  framework : String
  frameworkVersion : Option String := none
  deriving Repr, DecidableEq

/-- `BundleYaml` (types.ts); `version` is the literal "v1". -/
structure BundleYaml where
  version : String
  runConfig : BundleRunConfig
  outputFiles : BundleOutputFiles
  metadata : BundleMetadata
  deriving Repr, DecidableEq

/-- `FiremixConfig` (types.ts), restricted to the fields
`generateBundleWithMetadata` reads.  `allowSymlinks` may also be a string
list in TS; only its presence matters here. -/
structure FiremixConfig where
  runConfig : Option RunConfig := none
  buildDir : Option String := none
  buildDirectory : Option String := none
  serverBuildFile : Option String := none
  runCommand : Option String := none
  allowDevDependencies : Option Bool := none
  allowSymlinks : Option Bool := none
  verify : Option Bool := none
  deriving Repr, DecidableEq

/-- `quoteIfNeeded` (bundle.ts). -/
def quoteIfNeeded (value : String) : String :=
  if containsSub value " " then
    String.mk [doubleQuoteChar] ++ value ++ String.mk [doubleQuoteChar]
  else value

/-- `generateRunCommand` (bundle.ts). -/
def generateRunCommand (config : ResolvedRemixConfig)
    (customCommand : Option String) : String :=
  if optTruthy customCommand then customCommand.getD ""
  else
    quoteIfNeeded "node_modules/.bin/remix-serve" ++ " " ++
      quoteIfNeeded config.serverBuildPath

/-- `getServerBuildDir` (bundle.ts): `lastIndexOf("/")` is `-1` exactly
when the path contains no slash. -/
def getServerBuildDir (serverBuildPath : String) : String :=
  if !containsSub serverBuildPath "/" then "."
  else takeBeforeLastSlash serverBuildPath

/-- `GenerateBundleResult` (bundle.ts). -/
structure GenerateBundleResult where
  bundle : BundleYaml
  remixConfig : ResolvedRemixConfig
  warnings : List String
  deriving Repr, DecidableEq

/-- Abstract stand-in for the ESM `__dirname` of bundle.ts. -/
def bundleModuleDirname : String := "/firemix/dist"

/-- Steps 1–4 of `generateBundleWithMetadata` (bundle.ts), factored at the
source's numbered comments: config resolution, user overrides, optional
build verification, run-config validation. -/
def generateBundleSteps14 (fs : FS) (projectRoot : String)
    (config : FiremixConfig) :
    Except String (ResolvedRemixConfig × List String × RunConfigFull) := do
  let remixConfig0 ← resolveRemixConfig fs projectRoot
  let buildDirectory :=
    if optTruthy config.buildDirectory then config.buildDirectory
    else config.buildDir
  let remixConfig ←
    if optTruthy buildDirectory then do
      let _ ← sanitizeBuildDir (buildDirectory.getD "")
      applyConfigOverrides remixConfig0
        { buildDirectory := some buildDirectory,
          serverBuildFile := some config.serverBuildFile }
    else if optTruthy config.serverBuildFile then
      applyConfigOverrides remixConfig0
        { serverBuildFile := some config.serverBuildFile }
    else
      pure remixConfig0
  let warnings ←
    if config.verify != some false then
      let verification := verifyBuildOutput fs projectRoot remixConfig
      if !verification.valid then
        .error ("Build verification failed:\n" ++
          formatVerificationResult verification)
      else
        pure verification.warnings
    else
      pure []
  let runConfig ← validateRunConfig (config.runConfig.getD {})
  pure (remixConfig, warnings, runConfig)

/-- `generateBundleWithMetadata` (bundle.ts): steps 1–4
(`generateBundleSteps14`), then step 5 — the dependency guard, whose second
argument in the source is the object literal
`{allowDevDependencies: ..., allowSymlinks: ...}`, a value of runtime type
"object" — then version resolution and bundle assembly. -/
def generateBundleWithMetadata (fs : FS) (projectRoot : String)
    (config : FiremixConfig) : Except String GenerateBundleResult := do
  let pre ← generateBundleSteps14 fs projectRoot config
  let remixConfig := pre.1
  let warnings := pre.2.1
  let runConfig := pre.2.2
  let _ ← assertNoDevDependenciesInstalled fs projectRoot DevFlagArg.object
  let adapterVersion := getAdapterVersion fs (pathJoin bundleModuleDirname "..")
  let remixVersion := getResolvedRemixVersion fs projectRoot
  let warnings :=
    if remixVersion.isNone then
      warnings ++
        ["Could not resolve Remix version from node_modules. The frameworkVersion field will be omitted from bundle.yaml."]
    else warnings
  let bundle : BundleYaml :=
    { version := "v1"
      runConfig :=
        { runCommand := generateRunCommand remixConfig config.runCommand
          concurrency := runConfig.concurrency
          cpu := runConfig.cpu
          memoryMiB := runConfig.memoryMiB
          minInstances := runConfig.minInstances
          maxInstances := runConfig.maxInstances }
      outputFiles :=
        { serverApp :=
            { includeFiles :=
                [getServerBuildDir remixConfig.serverBuildPath,
                  remixConfig.clientBuildDir, "package.json",
                  "node_modules"] } }
      metadata :=
        { adapterPackageName := "firemix"
          adapterVersion := adapterVersion
          framework := "remix"
          frameworkVersion := remixVersion } }
  pure { bundle := bundle, remixConfig := remixConfig, warnings := warnings }

/-- `generateBundle` (bundle.ts). -/
def generateBundle (fs : FS) (projectRoot : String) (config : FiremixConfig) :
    Except String BundleYaml :=
  (generateBundleWithMetadata fs projectRoot config).map (·.bundle)

/-! ## Claim C2 — the dependency-guard argument type bug -/

/-- C2: `generateBundleWithMetadata` passes the options record
`{allowDevDependencies, allowSymlinks}` — a value of runtime type
"object" — as the boolean-typed second argument of
`assertNoDevDependenciesInstalled`, whose guard throws on any defined
non-boolean; hence no invocation ever succeeds, and every invocation whose
steps 1–4 pass (verification passed or disabled) fails with exactly the
"allowDevDependencies must be a boolean" error. -/
theorem claim_C2_devdeps_flag_type_error (fs : FS) (projectRoot : String)
    (config : FiremixConfig) :
    exceptIsOk (generateBundleWithMetadata fs projectRoot config) = false ∧
    (∀ pre, generateBundleSteps14 fs projectRoot config = .ok pre →
      generateBundleWithMetadata fs projectRoot config =
        .error "allowDevDependencies must be a boolean, got: object") ∧
    (∀ fs2 root2, assertNoDevDependenciesInstalled fs2 root2 DevFlagArg.object =
      .error "allowDevDependencies must be a boolean, got: object") := by
  have hstep : ∀ pre, generateBundleSteps14 fs projectRoot config = .ok pre →
      generateBundleWithMetadata fs projectRoot config =
        .error "allowDevDependencies must be a boolean, got: object" := by
    intro pre hok
    unfold generateBundleWithMetadata
    rw [hok]
    rfl
  refine ⟨?_, hstep, fun fs2 root2 => rfl⟩
  cases hok : generateBundleSteps14 fs projectRoot config with
  | error e =>
    unfold generateBundleWithMetadata
    rw [hok]
    rfl
  | ok pre =>
    rw [hstep pre hok]
    rfl

theorem claim_C2_devdeps_flag_type_error_witness :
    generateBundleSteps14
      ⟨fun _ => false, fun _ => false, fun _ => false, fun _ => 0,
        fun _ => false, fun _ => 0, fun _ => "", fun _ => none⟩
      "p" { verify := some false } = .ok (DEFAULTS, [], ⟨0, 10, 80, 1, 512⟩) ∧
    generateBundleWithMetadata
      ⟨fun _ => false, fun _ => false, fun _ => false, fun _ => 0,
        fun _ => false, fun _ => 0, fun _ => "", fun _ => none⟩
      "p" { verify := some false } =
      .error "allowDevDependencies must be a boolean, got: object" := by
  refine ⟨by rfl, ?_⟩
  exact (claim_C2_devdeps_flag_type_error _ "p" _).2.1 (DEFAULTS, [], ⟨0, 10, 80, 1, 512⟩) (by rfl)

/-! ## Bundle serialization (claim C6)

`serializeBundle` (bundle.ts) delegates to the external `js-yaml` `dump`
with `lineWidth: -1`, `quotingType: double-quote`, `noRefs: true`.
`dumpBundle` below is the dump model for the fixed `BundleYaml` shape. -/

def digitChar (d : Nat) : Char :=
  match d with
  | 0 => '0'
  | 1 => '1'
  | 2 => '2'
  | 3 => '3'
  | 4 => '4'
  | 5 => '5'
  | 6 => '6'
  | 7 => '7'
  | 8 => '8'
  | 9 => '9'
  | _ => '*'

def digitVal (c : Char) : Nat :=
  match c with
  | '0' => 0
  | '1' => 1
  | '2' => 2
  | '3' => 3
  | '4' => 4
  | '5' => 5
  | '6' => 6
  | '7' => 7
  | '8' => 8
  | '9' => 9
  | _ => 10

/-- Little-endian decimal digits of `n`, with explicit fuel (`n` itself
suffices since the argument quarters at least tenfold per step). -/
def natCharsAux : Nat → Nat → List Char
  | 0, _ => []
  | _ + 1, 0 => []
  | fuel + 1, n => digitChar (n % 10) :: natCharsAux fuel (n / 10)

/-- Decimal numeral of a natural number, most significant digit first. -/
def natChars (n : Nat) : List Char :=
  if n = 0 then ['0'] else (natCharsAux n n).reverse

/-- Decimal numeral of an integer (the JS `Number` serialization of the
validated integral run-config values). -/
def intLit (n : Int) : String :=
  if n < 0 then "-" ++ String.mk (natChars n.natAbs)
  else String.mk (natChars n.natAbs)

/-- `include` sub-block lines (4-space indent, `- ` items; an empty list
dumps in flow style). -/
def includeLines (paths : List String) : List String :=
  match paths with
  | [] => ["    include: []"]
  | _ :: _ => ["    include:"] ++ paths.map (fun p => "      - " ++ p)

/-- Modelled from the spec: the `js-yaml` `dump` of a `BundleYaml` value as
a list of lines — block style, insertion order, fixed key set, scalars in
plain style, and an optional field that is `undefined`
(`staticAssets`, `metadata.frameworkVersion`) omitted entirely rather than
emitted as a null marker (§4.6 of the spec; the repository's own
serialization tests pin this behavior).  `js-yaml`'s quoting of scalars
that cannot be written plain is outside the model; the round-trip theorem
restricts scalars to plain-safe strings. -/
def serializeBundleLines (b : BundleYaml) : List String :=
  ["version: " ++ b.version,
    "runConfig:",
    "  runCommand: " ++ b.runConfig.runCommand,
    "  concurrency: " ++ intLit b.runConfig.concurrency,
    "  cpu: " ++ intLit b.runConfig.cpu,
    "  memoryMiB: " ++ intLit b.runConfig.memoryMiB,
    "  minInstances: " ++ intLit b.runConfig.minInstances,
    "  maxInstances: " ++ intLit b.runConfig.maxInstances,
    "outputFiles:",
    "  serverApp:"] ++
  includeLines b.outputFiles.serverApp.includeFiles ++
  (match b.outputFiles.staticAssets with
   | none => []
   | some sa => ["  staticAssets:"] ++ includeLines sa.includeFiles) ++
  ["metadata:",
    "  adapterPackageName: " ++ b.metadata.adapterPackageName,
    "  adapterVersion: " ++ b.metadata.adapterVersion,
    "  framework: " ++ b.metadata.framework] ++
  (match b.metadata.frameworkVersion with
   | none => []
   | some v => ["  frameworkVersion: " ++ v])

/-- Lines joined with newlines. -/
def joinLinesChars : List (List Char) → List Char
  | [] => []
  | [l] => l
  | l :: l2 :: ls => l ++ '\n' :: joinLinesChars (l2 :: ls)

/-- Modelled from the spec: the text of the `js-yaml` `dump` — the lines
joined by newlines, with a trailing newline. -/
def dumpBundle (b : BundleYaml) : String :=
  String.mk
    (joinLinesChars ((serializeBundleLines b).map String.toList ++ [[]]))

/-- `serializeBundle` (bundle.ts): the generated-file header comment, a
blank line, then the YAML dump. -/
def serializeBundle (b : BundleYaml) : String :=
  "# Generated by Firemix - Firebase App Hosting adapter for Remix\n# https://github.com/yhakami/firemix\n\n" ++
    dumpBundle b

/-! ### A conformant reader for the serialized bundle -/

/-- Strip a prefix from a character list. -/
def stripPrefixChars : List Char → List Char → Option (List Char)
  | [], s => some s
  | _ :: _, [] => none
  | p :: ps, c :: cs => if p == c then stripPrefixChars ps cs else none

/-- Strip a string prefix. -/
def stripPrefixStr (s pre : String) : Option String :=
  (stripPrefixChars pre.toList s.toList).map String.mk

/-- Parse a non-empty all-digit numeral. -/
def parseNatChars (cs : List Char) : Option Nat :=
  match cs with
  | [] => none
  | _ :: _ =>
    if cs.all Char.isDigit then
      some (cs.foldl (fun a c => a * 10 + digitVal c) 0)
    else none

/-- Parse a decimal integer literal. -/
def parseIntLit (s : String) : Option Int :=
  match s.toList with
  | [] => none
  | c :: cs =>
    if c == '-' then (parseNatChars cs).map (fun n => -(n : Int))
    else (parseNatChars (c :: cs)).map (fun n => (n : Int))

/-- Expect one exact line. -/
def expectLine (expected : String) : List String → Option (List String)
  | l :: ls => if l == expected then some ls else none
  | [] => none

/-- Expect a `key: value` line with the given `"key: "` prefix and a
non-empty value. -/
def expectValueLine (pre : String) :
    List String → Option (String × List String)
  | l :: ls =>
    match stripPrefixStr l pre with
    | some v => if v == "" then none else some (v, ls)
    | none => none
  | [] => none

/-- Expect a `key: <integer>` line. -/
def expectIntLine (pre : String) (lines : List String) :
    Option (Int × List String) := do
  let vr ← expectValueLine pre lines
  let n ← parseIntLit vr.1
  pure (n, vr.2)

/-- Consume consecutive `- item` lines. -/
def parseIncludeItems : List String → List String × List String
  | [] => ([], [])
  | l :: ls =>
    match stripPrefixStr l "      - " with
    | some item =>
      let r := parseIncludeItems ls
      (item :: r.1, r.2)
    | none => ([], l :: ls)

/-- Parse an `include` sub-block (block sequence, or `[]` flow). -/
def parseIncludeBlock : List String → Option (List String × List String)
  | l :: ls =>
    if l == "    include: []" then some ([], ls)
    else if l == "    include:" then
      match parseIncludeItems ls with
      | ([], _) => none
      | (items, rest) => some (items, rest)
    else none
  | [] => none

/-- Parse the optional `staticAssets` block. -/
def parseStaticAssets (lines : List String) :
    Option (Option IncludeSet × List String) :=
  match expectLine "  staticAssets:" lines with
  | some ls =>
    match parseIncludeBlock ls with
    | some (items, rest) => some (some ⟨items⟩, rest)
    | none => none
  | none => some (none, lines)

/-- Parse the optional `frameworkVersion` line. -/
def parseFrameworkVersion (lines : List String) :
    Option String × List String :=
  match lines with
  | l :: ls =>
    match stripPrefixStr l "  frameworkVersion: " with
    | some v => if v == "" then (none, lines) else (some v, ls)
    | none => (none, lines)
  | [] => (none, lines)

/-- Parse the `runConfig` block. -/
def parseRunConfigBlock (lines : List String) :
    Option (BundleRunConfig × List String) := do
  let lines ← expectLine "runConfig:" lines
  let rc ← expectValueLine "  runCommand: " lines
  let conc ← expectIntLine "  concurrency: " rc.2
  let cpu ← expectIntLine "  cpu: " conc.2
  let mem ← expectIntLine "  memoryMiB: " cpu.2
  let mini ← expectIntLine "  minInstances: " mem.2
  let maxi ← expectIntLine "  maxInstances: " mini.2
  pure (⟨rc.1, conc.1, cpu.1, mem.1, mini.1, maxi.1⟩, maxi.2)

/-- Parse the `outputFiles` block. -/
def parseOutputFilesBlock (lines : List String) :
    Option (BundleOutputFiles × List String) := do
  let lines ← expectLine "outputFiles:" lines
  let lines ← expectLine "  serverApp:" lines
  let inc ← parseIncludeBlock lines
  let sa ← parseStaticAssets inc.2
  pure (⟨⟨inc.1⟩, sa.1⟩, sa.2)

/-- Parse the `metadata` block. -/
def parseMetadataBlock (lines : List String) :
    Option (BundleMetadata × List String) := do
  let lines ← expectLine "metadata:" lines
  let apn ← expectValueLine "  adapterPackageName: " lines
  let av ← expectValueLine "  adapterVersion: " apn.2
  let fw ← expectValueLine "  framework: " av.2
  let fv := parseFrameworkVersion fw.2
  pure (⟨apn.1, av.1, fw.1, fv.1⟩, fv.2)

/-- Parse the fixed serialized-bundle shape from its lines, ignoring
leading comment and blank lines and trailing blank lines. -/
def parseBundleLines (lines0 : List String) : Option BundleYaml := do
  let lines := lines0.dropWhile (fun l => l == "" || jsStartsWith l "#")
  let vr ← expectValueLine "version: " lines
  let rcb ← parseRunConfigBlock vr.2
  let ofb ← parseOutputFilesBlock rcb.2
  let mdb ← parseMetadataBlock ofb.2
  if mdb.2.all (fun l => l == "") then
    pure ⟨vr.1, rcb.1, ofb.1, mdb.1⟩
  else
    none

/-- Split a character list into newline-separated lines. -/
def splitLinesAux : List Char → List (List Char)
  | [] => [[]]
  | c :: cs =>
    if c == '\n' then [] :: splitLinesAux cs
    else
      match splitLinesAux cs with
      | [] => [[c]]
      | l :: ls => (c :: l) :: ls

/-- A conformant reader for `serializeBundle` output. -/
def parseBundle (s : String) : Option BundleYaml :=
  parseBundleLines ((splitLinesAux s.toList).map String.mk)

/-- Characters that may appear in a plain (unquoted) YAML scalar. -/
def plainChar (c : Char) : Bool :=
  c.isAlphanum || c == ' ' || c == '.' || c == '/' || c == '_' ||
    c == '-' || c == ':' || c == '@' || c == '+' || c == '~' ||
    c == '^' || c == singleQuoteChar

/-- A string that `js-yaml` dumps in plain style and a conformant reader
reads back verbatim: non-empty, alphanumeric first character, plain-safe
characters, no `": "` or `" #"`, no trailing space. -/
def plainScalar (s : String) : Bool :=
  !(s == "") &&
    (s.toList.headD ' ').isAlphanum &&
    s.toList.all plainChar &&
    !containsSub s ": " &&
    !containsSub s " #" &&
    !((s.toList.getLast?.getD ' ') == ' ')

def plainOpt : Option String → Bool
  | none => true
  | some v => plainScalar v

/-- All scalars of the bundle are plain-safe. -/
def bundleWellFormed (b : BundleYaml) : Bool :=
  plainScalar b.version && plainScalar b.runConfig.runCommand &&
    b.outputFiles.serverApp.includeFiles.all plainScalar &&
    (match b.outputFiles.staticAssets with
     | none => true
     | some sa => sa.includeFiles.all plainScalar) &&
    plainScalar b.metadata.adapterPackageName &&
    plainScalar b.metadata.adapterVersion &&
    plainScalar b.metadata.framework &&
    plainOpt b.metadata.frameworkVersion

/-! ### Round-trip lemmas: numerals -/

theorem strToList_append (a b : String) : (a ++ b).toList = a.toList ++ b.toList := by
  cases a
  cases b
  rfl

theorem mk_toList (s : String) : String.mk s.toList = s := by
  cases s
  rfl

def valLE : List Char → Nat
  | [] => 0
  | c :: cs => digitVal c + 10 * valLE cs

theorem digitVal_digitChar {d : Nat} (h : d < 10) : digitVal (digitChar d) = d := by
  interval_cases d <;> decide

theorem digitChar_isDigit {d : Nat} (h : d < 10) : (digitChar d).isDigit = true := by
  interval_cases d <;> decide

theorem valLE_natCharsAux : ∀ (fuel n : Nat), n ≤ fuel → valLE (natCharsAux fuel n) = n := by
  intro fuel
  induction fuel with
  | zero =>
    intro n h
    have h0 : n = 0 := by omega
    subst h0
    rfl
  | succ f ih =>
    intro n h
    cases n with
    | zero => rfl
    | succ m =>
      rw [show natCharsAux (f + 1) (m + 1) =
        digitChar ((m + 1) % 10) :: natCharsAux f ((m + 1) / 10) from rfl]
      rw [valLE]
      rw [digitVal_digitChar (by omega : (m + 1) % 10 < 10)]
      rw [ih ((m + 1) / 10) (by omega)]
      omega

theorem natCharsAux_digits : ∀ (fuel n : Nat), (natCharsAux fuel n).all Char.isDigit = true := by
  intro fuel
  induction fuel with
  | zero => intro n; rfl
  | succ f ih =>
    intro n
    cases n with
    | zero => rfl
    | succ m =>
      rw [show natCharsAux (f + 1) (m + 1) =
        digitChar ((m + 1) % 10) :: natCharsAux f ((m + 1) / 10) from rfl]
      rw [List.all_cons, digitChar_isDigit (by omega : (m + 1) % 10 < 10), ih]
      rfl

theorem natCharsAux_ne_nil (f n : Nat) (h0 : n ≠ 0) (hle : n ≤ f) :
    natCharsAux f n ≠ [] := by
  cases f with
  | zero => omega
  | succ f =>
    cases n with
    | zero => exact absurd rfl h0
    | succ m => simp [show natCharsAux (f + 1) (m + 1) =
        digitChar ((m + 1) % 10) :: natCharsAux f ((m + 1) / 10) from rfl]

theorem foldl_digits_reverse (l : List Char) : ∀ a : Nat,
    l.reverse.foldl (fun a c => a * 10 + digitVal c) a = a * 10 ^ l.length + valLE l := by
  induction l with
  | nil => intro a; simp [valLE]
  | cons c cs ih =>
    intro a
    rw [List.reverse_cons, List.foldl_append, ih a]
    simp only [List.foldl_cons, List.foldl_nil, valLE, List.length_cons, pow_succ]
    ring

theorem parseNatChars_of_digits (cs : List Char) (hne : cs ≠ [])
    (hall : cs.all Char.isDigit = true) :
    parseNatChars cs = some (cs.foldl (fun a c => a * 10 + digitVal c) 0) := by
  cases cs with
  | nil => exact absurd rfl hne
  | cons c cs => simp [parseNatChars, hall]

theorem natChars_ne_nil (n : Nat) : natChars n ≠ [] := by
  rw [natChars]
  split
  · simp
  · simp only [ne_eq, List.reverse_eq_nil_iff]
    exact natCharsAux_ne_nil n n (by assumption) le_rfl

theorem natChars_all_digits (n : Nat) : (natChars n).all Char.isDigit = true := by
  rw [natChars]
  split
  · decide
  · rw [List.all_reverse]
    exact natCharsAux_digits n n

theorem parseNatChars_natChars (n : Nat) : parseNatChars (natChars n) = some n := by
  by_cases h0 : n = 0
  · subst h0; decide
  · have hne : natChars n ≠ [] := natChars_ne_nil n
    have hall : (natChars n).all Char.isDigit = true := natChars_all_digits n
    rw [parseNatChars_of_digits _ hne hall]
    rw [natChars, if_neg h0] at *
    rw [foldl_digits_reverse (natCharsAux n n) 0]
    rw [valLE_natCharsAux n n le_rfl]
    simp

theorem isDigit_ne_dash {c : Char} (h : c.isDigit = true) : (c == '-') = false := by
  cases hc : c == '-'
  · rfl
  · have hceq := eq_of_beq hc
    subst hceq
    exact absurd h (by decide)

theorem obind_some {α β : Type} (a : α) (f : α → Option β) :
    ((some a : Option α) >>= f) = f a := rfl

theorem opure_def {α : Type} (a : α) : (pure a : Option α) = some a := rfl

theorem omap_some {α β : Type} (f : α → β) (a : α) :
    Option.map f (some a) = some (f a) := rfl

theorem parseIntLit_toList_cons (s : String) (c : Char) (cs : List Char)
    (h : s.toList = c :: cs) :
    parseIntLit s = if c == '-' then (parseNatChars cs).map (fun n => -(n : Int))
      else (parseNatChars (c :: cs)).map (fun n => (n : Int)) := by
  unfold parseIntLit
  rw [h]

theorem parseIntLit_intLit (n : Int) : parseIntLit (intLit n) = some n := by
  rw [intLit]
  split
  · rw [parseIntLit_toList_cons _ '-' (natChars n.natAbs) (by rw [strToList_append]; rfl)]
    rw [if_pos (show (('-' : Char) == '-') = true from rfl)]
    rw [parseNatChars_natChars]
    simp only [obind_some, opure_def, omap_some]
    rw [show ((n.natAbs : Int)) = -n from by omega, neg_neg]
  · obtain ⟨c, cs, hcc⟩ : ∃ c cs, natChars n.natAbs = c :: cs := by
      rcases hnc : natChars n.natAbs with _ | ⟨c, cs⟩
      · exact absurd hnc (natChars_ne_nil _)
      · exact ⟨c, cs, rfl⟩
    have hdig : c.isDigit = true := by
      have hd := natChars_all_digits n.natAbs
      rw [hcc, List.all_cons, Bool.and_eq_true] at hd
      exact hd.1
    rw [parseIntLit_toList_cons _ c cs
      (show (String.mk (natChars n.natAbs)).toList = c :: cs from hcc)]
    rw [if_neg (by rw [isDigit_ne_dash hdig]; exact Bool.false_ne_true)]
    rw [← hcc, parseNatChars_natChars]
    simp only [obind_some, opure_def, omap_some]
    rw [show ((n.natAbs : Int)) = n from by omega]

/-! ### Round-trip lemmas: lines -/

theorem stripPrefixChars_append (p rest : List Char) :
    stripPrefixChars p (p ++ rest) = some rest := by
  induction p with
  | nil => rfl
  | cons c cs ih => simp [stripPrefixChars, ih]

theorem stripPrefixStr_append (pre v : String) :
    stripPrefixStr (pre ++ v) pre = some v := by
  unfold stripPrefixStr
  rw [strToList_append, stripPrefixChars_append, omap_some, mk_toList]

theorem expectLine_cons (l : String) (rest : List String) :
    expectLine l (l :: rest) = some rest := by
  show (if l == l then some rest else none) = some rest
  rw [if_pos (beq_self_eq_true l)]

theorem expectValueLine_cons (pre v : String) (rest : List String)
    (hv : (v == "") = false) :
    expectValueLine pre ((pre ++ v) :: rest) = some (v, rest) := by
  simp only [expectValueLine, stripPrefixStr_append]
  rw [hv]
  rfl

theorem expectIntLine_cons (pre : String) (n : Int) (rest : List String)
    (hv : (intLit n == "") = false) :
    expectIntLine pre ((pre ++ intLit n) :: rest) = some (n, rest) := by
  unfold expectIntLine
  rw [expectValueLine_cons pre (intLit n) rest hv]
  simp only [obind_some]
  rw [parseIntLit_intLit]
  simp only [obind_some, opure_def]

theorem intLit_ne_empty (n : Int) : (intLit n == "") = false := by
  rw [intLit]
  split
  · rfl
  · obtain ⟨c, cs, hcc⟩ : ∃ c cs, natChars n.natAbs = c :: cs := by
      rcases hnc : natChars n.natAbs with _ | ⟨c, cs⟩
      · exact absurd hnc (natChars_ne_nil _)
      · exact ⟨c, cs, rfl⟩
    rw [hcc]
    rfl

theorem plainScalar_ne_empty {v : String} (h : plainScalar v = true) :
    (v == "") = false := by
  rw [plainScalar] at h
  repeat rw [Bool.and_eq_true] at h
  have h1 := h.1.1.1.1.1
  rw [Bool.not_eq_true'] at h1
  exact h1

theorem parseIncludeItems_stop (l : String) (ls : List String)
    (h : stripPrefixStr l "      - " = none) :
    parseIncludeItems (l :: ls) = ([], l :: ls) := by
  unfold parseIncludeItems
  rw [h]

theorem parseIncludeItems_append (paths : List String) (rest : List String)
    (hstop : parseIncludeItems rest = ([], rest)) :
    parseIncludeItems (paths.map (fun p => "      - " ++ p) ++ rest) = (paths, rest) := by
  induction paths with
  | nil => simpa using hstop
  | cons p ps ih =>
    simp only [List.map_cons, List.cons_append]
    unfold parseIncludeItems
    rw [stripPrefixStr_append]
    simp only [ih]

theorem parseIncludeBlock_lines (paths : List String) (rest : List String)
    (hstop : parseIncludeItems rest = ([], rest)) :
    parseIncludeBlock (includeLines paths ++ rest) = some (paths, rest) := by
  cases paths with
  | nil => simp [includeLines, parseIncludeBlock]
  | cons p ps =>
    simp only [includeLines, List.cons_append, List.nil_append]
    simp only [parseIncludeBlock]
    rw [if_neg (by decide), if_pos (by decide)]
    rw [parseIncludeItems_append (p :: ps) rest hstop]

/-! ### Round-trip lemmas: blocks -/

theorem expectLine_cons_ne (e l : String) (rest : List String)
    (h : (l == e) = false) : expectLine e (l :: rest) = none := by
  show (if l == e then some rest else none) = none
  rw [if_neg (by rw [h]; exact Bool.false_ne_true)]

theorem parseRunConfigBlock_lines (rc : BundleRunConfig) (rest : List String)
    (hrc : (rc.runCommand == "") = false) :
    parseRunConfigBlock ("runConfig:" ::
      ("  runCommand: " ++ rc.runCommand) ::
      ("  concurrency: " ++ intLit rc.concurrency) ::
      ("  cpu: " ++ intLit rc.cpu) ::
      ("  memoryMiB: " ++ intLit rc.memoryMiB) ::
      ("  minInstances: " ++ intLit rc.minInstances) ::
      ("  maxInstances: " ++ intLit rc.maxInstances) :: rest) = some (rc, rest) := by
  unfold parseRunConfigBlock
  rw [expectLine_cons]
  simp only [obind_some]
  rw [expectValueLine_cons _ _ _ hrc]
  simp only [obind_some]
  rw [expectIntLine_cons _ _ _ (intLit_ne_empty _)]
  simp only [obind_some]
  rw [expectIntLine_cons _ _ _ (intLit_ne_empty _)]
  simp only [obind_some]
  rw [expectIntLine_cons _ _ _ (intLit_ne_empty _)]
  simp only [obind_some]
  rw [expectIntLine_cons _ _ _ (intLit_ne_empty _)]
  simp only [obind_some]
  rw [expectIntLine_cons _ _ _ (intLit_ne_empty _)]
  simp only [obind_some, opure_def]

theorem parseStaticAssets_absent (lines : List String)
    (h : expectLine "  staticAssets:" lines = none) :
    parseStaticAssets lines = some (none, lines) := by
  unfold parseStaticAssets
  rw [h]

theorem parseStaticAssets_present (items : List String) (rest : List String)
    (hstop : parseIncludeItems rest = ([], rest)) :
    parseStaticAssets ("  staticAssets:" :: (includeLines items ++ rest)) =
      some (some ⟨items⟩, rest) := by
  unfold parseStaticAssets
  rw [expectLine_cons]
  simp only []
  rw [parseIncludeBlock_lines items rest hstop]

theorem parseOutputFilesBlock_lines_none (items : List String) (rest2 : List String) :
    parseOutputFilesBlock ("outputFiles:" :: "  serverApp:" ::
      (includeLines items ++ ("metadata:" :: rest2))) =
      some (⟨⟨items⟩, none⟩, "metadata:" :: rest2) := by
  unfold parseOutputFilesBlock
  rw [expectLine_cons]
  simp only [obind_some]
  rw [expectLine_cons]
  simp only [obind_some]
  rw [parseIncludeBlock_lines _ _ (parseIncludeItems_stop _ _ (by decide))]
  simp only [obind_some]
  rw [parseStaticAssets_absent _ (expectLine_cons_ne _ _ _ (by decide))]
  simp only [obind_some, opure_def]

theorem parseOutputFilesBlock_lines_some (items items2 : List String)
    (rest2 : List String) :
    parseOutputFilesBlock ("outputFiles:" :: "  serverApp:" ::
      (includeLines items ++
        ("  staticAssets:" :: (includeLines items2 ++ ("metadata:" :: rest2))))) =
      some (⟨⟨items⟩, some ⟨items2⟩⟩, "metadata:" :: rest2) := by
  unfold parseOutputFilesBlock
  rw [expectLine_cons]
  simp only [obind_some]
  rw [expectLine_cons]
  simp only [obind_some]
  rw [parseIncludeBlock_lines _ _ (parseIncludeItems_stop _ _ (by decide))]
  simp only [obind_some]
  rw [parseStaticAssets_present _ _ (parseIncludeItems_stop _ _ (by decide))]
  simp only [obind_some, opure_def]

theorem parseFrameworkVersion_absent : parseFrameworkVersion [""] = (none, [""]) := rfl

theorem parseFrameworkVersion_present (v : String) (hv : (v == "") = false) :
    parseFrameworkVersion (("  frameworkVersion: " ++ v) :: [""]) = (some v, [""]) := by
  simp only [parseFrameworkVersion, stripPrefixStr_append]
  rw [if_neg (by rw [hv]; exact Bool.false_ne_true)]

theorem parseMetadataBlock_lines_none (md : BundleMetadata)
    (hfv : md.frameworkVersion = none)
    (h1 : (md.adapterPackageName == "") = false)
    (h2 : (md.adapterVersion == "") = false)
    (h3 : (md.framework == "") = false) :
    parseMetadataBlock ("metadata:" ::
      ("  adapterPackageName: " ++ md.adapterPackageName) ::
      ("  adapterVersion: " ++ md.adapterVersion) ::
      ("  framework: " ++ md.framework) :: [""]) = some (md, [""]) := by
  unfold parseMetadataBlock
  rw [expectLine_cons]
  simp only [obind_some]
  rw [expectValueLine_cons _ _ _ h1]
  simp only [obind_some]
  rw [expectValueLine_cons _ _ _ h2]
  simp only [obind_some]
  rw [expectValueLine_cons _ _ _ h3]
  simp only [obind_some]
  rw [parseFrameworkVersion_absent]
  simp only [opure_def]
  rw [show (⟨md.adapterPackageName, md.adapterVersion, md.framework, none⟩ :
    BundleMetadata) = md from by rw [← hfv]]

theorem parseMetadataBlock_lines_some (md : BundleMetadata) (v : String)
    (hfv : md.frameworkVersion = some v)
    (h1 : (md.adapterPackageName == "") = false)
    (h2 : (md.adapterVersion == "") = false)
    (h3 : (md.framework == "") = false)
    (hv : (v == "") = false) :
    parseMetadataBlock ("metadata:" ::
      ("  adapterPackageName: " ++ md.adapterPackageName) ::
      ("  adapterVersion: " ++ md.adapterVersion) ::
      ("  framework: " ++ md.framework) ::
      ("  frameworkVersion: " ++ v) :: [""]) = some (md, [""]) := by
  unfold parseMetadataBlock
  rw [expectLine_cons]
  simp only [obind_some]
  rw [expectValueLine_cons _ _ _ h1]
  simp only [obind_some]
  rw [expectValueLine_cons _ _ _ h2]
  simp only [obind_some]
  rw [expectValueLine_cons _ _ _ h3]
  simp only [obind_some]
  rw [parseFrameworkVersion_present v hv]
  simp only [opure_def]
  rw [show (⟨md.adapterPackageName, md.adapterVersion, md.framework, some v⟩ :
    BundleMetadata) = md from by rw [← hfv]]

/-! ### Round-trip lemmas: line splitting -/

def serializeBundleAllLines (b : BundleYaml) : List String :=
  "# Generated by Firemix - Firebase App Hosting adapter for Remix" ::
    "# https://github.com/yhakami/firemix" :: "" ::
    (serializeBundleLines b ++ [""])

theorem joinLinesChars_cons_ne_nil (l : List Char) (ls : List (List Char))
    (h : ls ≠ []) : joinLinesChars (l :: ls) = l ++ '\n' :: joinLinesChars ls := by
  cases ls with
  | nil => exact absurd rfl h
  | cons l2 ls2 => rfl

theorem serializeBundle_toList (b : BundleYaml) :
    (serializeBundle b).toList =
      joinLinesChars ((serializeBundleAllLines b).map String.toList) := by
  unfold serializeBundleAllLines
  simp only [List.map_cons, List.map_append]
  rw [joinLinesChars_cons_ne_nil _ _ (by simp), joinLinesChars_cons_ne_nil _ _ (by simp),
    joinLinesChars_cons_ne_nil _ _ (by simp)]
  rfl

theorem splitLinesAux_single (l : List Char)
    (h : l.all (fun c => !(c == '\n')) = true) : splitLinesAux l = [l] := by
  induction l with
  | nil => rfl
  | cons c cs ih =>
    rw [List.all_cons, Bool.and_eq_true] at h
    have hc : (c == '\n') = false := by
      cases hceq : c == '\n'
      · rfl
      · rw [hceq] at h; exact absurd h.1 (by decide)
    simp only [splitLinesAux]
    rw [if_neg (by rw [hc]; exact Bool.false_ne_true)]
    rw [ih h.2]

theorem splitLinesAux_newline (l rest : List Char)
    (h : l.all (fun c => !(c == '\n')) = true) :
    splitLinesAux (l ++ '\n' :: rest) = l :: splitLinesAux rest := by
  induction l with
  | nil =>
    simp only [List.nil_append, splitLinesAux]
    rw [if_pos (show (('\n' : Char) == '\n') = true from rfl)]
  | cons c cs ih =>
    rw [List.all_cons, Bool.and_eq_true] at h
    have hc : (c == '\n') = false := by
      cases hceq : c == '\n'
      · rfl
      · rw [hceq] at h; exact absurd h.1 (by decide)
    simp only [List.cons_append, splitLinesAux, List.append_eq]
    rw [if_neg (by rw [hc]; exact Bool.false_ne_true)]
    rw [ih h.2]

theorem splitLinesAux_joinLines : ∀ (L : List (List Char)),
    (∀ l ∈ L, l.all (fun c => !(c == '\n')) = true) → L ≠ [] →
    splitLinesAux (joinLinesChars L) = L := by
  intro L
  induction L with
  | nil => intro _ h; exact absurd rfl h
  | cons l ls ih =>
    intro hall _
    cases ls with
    | nil =>
      rw [show joinLinesChars [l] = l from rfl]
      exact splitLinesAux_single l (hall l (by simp))
    | cons l2 ls2 =>
      rw [show joinLinesChars (l :: l2 :: ls2) = l ++ '\n' :: joinLinesChars (l2 :: ls2)
        from rfl]
      rw [splitLinesAux_newline l _ (hall l (by simp))]
      rw [ih (fun x hx => hall x (by simp [hx])) (by simp)]

theorem map_mk_map_toList (ls : List String) :
    (ls.map String.toList).map String.mk = ls := by
  induction ls with
  | nil => rfl
  | cons s ss ih => simp only [List.map_cons, ih, mk_toList]

/-! ### Round-trip lemmas: no newline occurs in any emitted line -/

theorem noNL_append (a b : String)
    (ha : a.toList.all (fun c => !(c == '\n')) = true)
    (hb : b.toList.all (fun c => !(c == '\n')) = true) :
    (a ++ b).toList.all (fun c => !(c == '\n')) = true := by
  rw [strToList_append, List.all_append, ha, hb]
  rfl

theorem plainScalar_noNL {v : String} (h : plainScalar v = true) :
    v.toList.all (fun c => !(c == '\n')) = true := by
  rw [plainScalar] at h
  simp only [Bool.and_eq_true] at h
  obtain ⟨⟨⟨⟨⟨he, hh⟩, hp⟩, hc1⟩, hc2⟩, ht⟩ := h
  rw [List.all_eq_true] at hp ⊢
  intro c hc
  have hpc := hp c hc
  cases hceq : c == '\n'
  · rfl
  · have hce := eq_of_beq hceq
    subst hce
    exact absurd hpc (by decide)

theorem all_digits_noNL (cs : List Char) (hcs : cs.all Char.isDigit = true) :
    cs.all (fun c => !(c == '\n')) = true := by
  rw [List.all_eq_true] at hcs ⊢
  intro c hc
  have hd := hcs c hc
  cases hceq : c == '\n'
  · rfl
  · have hce := eq_of_beq hceq
    subst hce
    exact absurd hd (by decide)

theorem intLit_noNL (n : Int) : (intLit n).toList.all (fun c => !(c == '\n')) = true := by
  rw [intLit]
  split
  · rw [show ("-" ++ String.mk (natChars n.natAbs)).toList = '-' :: natChars n.natAbs from
      by rw [strToList_append]; rfl]
    rw [List.all_cons]
    rw [all_digits_noNL _ (natChars_all_digits n.natAbs)]
    rfl
  · exact all_digits_noNL _ (natChars_all_digits n.natAbs)

theorem mem_includeLines_noNL (paths : List String) (hp : paths.all plainScalar = true)
    (s : String) (hs : s ∈ includeLines paths) :
    s.toList.all (fun c => !(c == '\n')) = true := by
  cases paths with
  | nil =>
    rw [includeLines] at hs
    simp only [List.mem_singleton] at hs
    subst hs
    decide
  | cons p ps =>
    rw [includeLines] at hs
    simp only [List.cons_append, List.nil_append, List.mem_cons, List.mem_map] at hs
    rcases hs with rfl | ⟨q, hq, rfl⟩
    · decide
    · refine noNL_append _ _ (by decide) (plainScalar_noNL ?_)
      rw [List.all_eq_true] at hp
      exact hp q (List.mem_cons.mpr hq)

theorem append_ne_empty (pre v : String) (hpre : pre.toList ≠ []) :
    ((pre ++ v) == "") = false := by
  cases hb : (pre ++ v) == ""
  · rfl
  · exfalso
    have hbe := eq_of_beq hb
    have h2 := congrArg String.toList hbe
    rw [strToList_append] at h2
    rw [show ("" : String).toList = [] from rfl] at h2
    exact hpre (List.append_eq_nil.mp h2).1

theorem jsStartsWith_hash_append (pre v : String) (c : Char) (cs : List Char)
    (hpre : pre.toList = c :: cs) (hc : (('#' : Char) == c) = false) :
    jsStartsWith (pre ++ v) "#" = false := by
  unfold jsStartsWith
  rw [strToList_append, hpre]
  show (('#' == c) && listIsPrefix [] (cs ++ v.toList)) = false
  rw [hc]
  rfl

theorem parseBundleLines_allLines (b : BundleYaml) (h : bundleWellFormed b = true) :
    parseBundleLines (serializeBundleAllLines b) = some b := by
  rw [bundleWellFormed] at h
  simp only [Bool.and_eq_true] at h
  obtain ⟨⟨⟨⟨⟨⟨⟨hver, hrun⟩, hsrv⟩, hsa⟩, hapn⟩, hav⟩, hfw⟩, hfv⟩ := h
  have hstop : ¬(((("version: " ++ b.version) == "") ||
      jsStartsWith ("version: " ++ b.version) "#") = true) := by
    rw [append_ne_empty "version: " b.version (by decide),
      jsStartsWith_hash_append "version: " b.version 'v' _ rfl (by decide)]
    decide
  unfold parseBundleLines serializeBundleAllLines
  rcases hsa2 : b.outputFiles.staticAssets with _ | sa
  · rcases hfv2 : b.metadata.frameworkVersion with _ | fv
    · simp only [serializeBundleLines, hsa2, hfv2, List.cons_append, List.nil_append,
        List.append_assoc, List.append_nil]
      rw [List.dropWhile_cons, if_pos (by decide), List.dropWhile_cons, if_pos (by decide),
        List.dropWhile_cons, if_pos (by decide), List.dropWhile_cons, if_neg hstop]
      rw [expectValueLine_cons _ _ _ (plainScalar_ne_empty hver)]
      simp only [obind_some]
      rw [parseRunConfigBlock_lines b.runConfig _ (plainScalar_ne_empty hrun)]
      simp only [obind_some]
      rw [parseOutputFilesBlock_lines_none]
      rw [show (⟨⟨b.outputFiles.serverApp.includeFiles⟩, none⟩ : BundleOutputFiles) =
        b.outputFiles from by rw [← hsa2]]
      simp only [obind_some]
      rw [parseMetadataBlock_lines_none b.metadata hfv2 (plainScalar_ne_empty hapn)
        (plainScalar_ne_empty hav) (plainScalar_ne_empty hfw)]
      simp only [obind_some]
      rw [if_pos (by decide)]
      simp only [opure_def]
    · simp only [serializeBundleLines, hsa2, hfv2, List.cons_append, List.nil_append,
        List.append_assoc, List.append_nil]
      rw [List.dropWhile_cons, if_pos (by decide), List.dropWhile_cons, if_pos (by decide),
        List.dropWhile_cons, if_pos (by decide), List.dropWhile_cons, if_neg hstop]
      rw [expectValueLine_cons _ _ _ (plainScalar_ne_empty hver)]
      simp only [obind_some]
      rw [parseRunConfigBlock_lines b.runConfig _ (plainScalar_ne_empty hrun)]
      simp only [obind_some]
      rw [parseOutputFilesBlock_lines_none]
      rw [show (⟨⟨b.outputFiles.serverApp.includeFiles⟩, none⟩ : BundleOutputFiles) =
        b.outputFiles from by rw [← hsa2]]
      simp only [obind_some]
      rw [parseMetadataBlock_lines_some b.metadata fv hfv2 (plainScalar_ne_empty hapn)
        (plainScalar_ne_empty hav) (plainScalar_ne_empty hfw)
        (plainScalar_ne_empty (show plainScalar fv = true from by rw [hfv2] at hfv; exact hfv))]
      simp only [obind_some]
      rw [if_pos (by decide)]
      simp only [opure_def]
  · rcases hfv2 : b.metadata.frameworkVersion with _ | fv
    · simp only [serializeBundleLines, hsa2, hfv2, List.cons_append, List.nil_append,
        List.append_assoc, List.append_nil]
      rw [List.dropWhile_cons, if_pos (by decide), List.dropWhile_cons, if_pos (by decide),
        List.dropWhile_cons, if_pos (by decide), List.dropWhile_cons, if_neg hstop]
      rw [expectValueLine_cons _ _ _ (plainScalar_ne_empty hver)]
      simp only [obind_some]
      rw [parseRunConfigBlock_lines b.runConfig _ (plainScalar_ne_empty hrun)]
      simp only [obind_some]
      rw [parseOutputFilesBlock_lines_some]
      rw [show (⟨⟨b.outputFiles.serverApp.includeFiles⟩, some ⟨sa.includeFiles⟩⟩ :
        BundleOutputFiles) = b.outputFiles from by
        rw [show (⟨sa.includeFiles⟩ : IncludeSet) = sa from rfl, ← hsa2]]
      simp only [obind_some]
      rw [parseMetadataBlock_lines_none b.metadata hfv2 (plainScalar_ne_empty hapn)
        (plainScalar_ne_empty hav) (plainScalar_ne_empty hfw)]
      simp only [obind_some]
      rw [if_pos (by decide)]
      simp only [opure_def]
    · simp only [serializeBundleLines, hsa2, hfv2, List.cons_append, List.nil_append,
        List.append_assoc, List.append_nil]
      rw [List.dropWhile_cons, if_pos (by decide), List.dropWhile_cons, if_pos (by decide),
        List.dropWhile_cons, if_pos (by decide), List.dropWhile_cons, if_neg hstop]
      rw [expectValueLine_cons _ _ _ (plainScalar_ne_empty hver)]
      simp only [obind_some]
      rw [parseRunConfigBlock_lines b.runConfig _ (plainScalar_ne_empty hrun)]
      simp only [obind_some]
      rw [parseOutputFilesBlock_lines_some]
      rw [show (⟨⟨b.outputFiles.serverApp.includeFiles⟩, some ⟨sa.includeFiles⟩⟩ :
        BundleOutputFiles) = b.outputFiles from by
        rw [show (⟨sa.includeFiles⟩ : IncludeSet) = sa from rfl, ← hsa2]]
      simp only [obind_some]
      rw [parseMetadataBlock_lines_some b.metadata fv hfv2 (plainScalar_ne_empty hapn)
        (plainScalar_ne_empty hav) (plainScalar_ne_empty hfw)
        (plainScalar_ne_empty (show plainScalar fv = true from by rw [hfv2] at hfv; exact hfv))]
      simp only [obind_some]
      rw [if_pos (by decide)]
      simp only [opure_def]

theorem serializeBundleAllLines_noNL (b : BundleYaml) (h : bundleWellFormed b = true) :
    ∀ l ∈ (serializeBundleAllLines b).map String.toList,
      l.all (fun c => !(c == '\n')) = true := by
  rw [bundleWellFormed] at h
  simp only [Bool.and_eq_true] at h
  obtain ⟨⟨⟨⟨⟨⟨⟨hver, hrun⟩, hsrv⟩, hsa⟩, hapn⟩, hav⟩, hfw⟩, hfv⟩ := h
  intro lc hlc
  rw [List.mem_map] at hlc
  obtain ⟨s, hs, rfl⟩ := hlc
  rcases hsa2 : b.outputFiles.staticAssets with _ | sa
  · rcases hfv2 : b.metadata.frameworkVersion with _ | fv
    · simp only [serializeBundleAllLines, serializeBundleLines, hsa2, hfv2,
        List.cons_append, List.nil_append, List.append_assoc, List.append_nil,
        List.mem_cons, List.mem_append, List.mem_singleton, List.not_mem_nil,
        or_false] at hs
      rcases hs with rfl|rfl|rfl|rfl|rfl|rfl|rfl|rfl|rfl|rfl|rfl|rfl|rfl|hs|rfl|rfl|rfl|rfl|rfl
      all_goals first
        | decide
        | exact noNL_append _ _ (by decide) (plainScalar_noNL hver)
        | exact noNL_append _ _ (by decide) (plainScalar_noNL hrun)
        | exact noNL_append _ _ (by decide) (intLit_noNL _)
        | exact noNL_append _ _ (by decide) (plainScalar_noNL hapn)
        | exact noNL_append _ _ (by decide) (plainScalar_noNL hav)
        | exact noNL_append _ _ (by decide) (plainScalar_noNL hfw)
        | exact mem_includeLines_noNL _ hsrv _ hs
    · simp only [serializeBundleAllLines, serializeBundleLines, hsa2, hfv2,
        List.cons_append, List.nil_append, List.append_assoc, List.append_nil,
        List.mem_cons, List.mem_append, List.mem_singleton, List.not_mem_nil,
        or_false] at hs
      rcases hs with rfl|rfl|rfl|rfl|rfl|rfl|rfl|rfl|rfl|rfl|rfl|rfl|rfl|hs|rfl|rfl|rfl|rfl|rfl|rfl
      all_goals first
        | decide
        | exact noNL_append _ _ (by decide) (plainScalar_noNL hver)
        | exact noNL_append _ _ (by decide) (plainScalar_noNL hrun)
        | exact noNL_append _ _ (by decide) (intLit_noNL _)
        | exact noNL_append _ _ (by decide) (plainScalar_noNL hapn)
        | exact noNL_append _ _ (by decide) (plainScalar_noNL hav)
        | exact noNL_append _ _ (by decide) (plainScalar_noNL hfw)
        | exact noNL_append _ _ (by decide)
            (plainScalar_noNL (show plainScalar fv = true from by rw [hfv2] at hfv; exact hfv))
        | exact mem_includeLines_noNL _ hsrv _ hs
  · rcases hfv2 : b.metadata.frameworkVersion with _ | fv
    · simp only [serializeBundleAllLines, serializeBundleLines, hsa2, hfv2,
        List.cons_append, List.nil_append, List.append_assoc, List.append_nil,
        List.mem_cons, List.mem_append, List.mem_singleton, List.not_mem_nil,
        or_false] at hs
      rcases hs with rfl|rfl|rfl|rfl|rfl|rfl|rfl|rfl|rfl|rfl|rfl|rfl|rfl|hs|rfl|hs|rfl|rfl|rfl|rfl|rfl
      all_goals first
        | decide
        | exact noNL_append _ _ (by decide) (plainScalar_noNL hver)
        | exact noNL_append _ _ (by decide) (plainScalar_noNL hrun)
        | exact noNL_append _ _ (by decide) (intLit_noNL _)
        | exact noNL_append _ _ (by decide) (plainScalar_noNL hapn)
        | exact noNL_append _ _ (by decide) (plainScalar_noNL hav)
        | exact noNL_append _ _ (by decide) (plainScalar_noNL hfw)
        | exact mem_includeLines_noNL _ hsrv _ hs
        | exact mem_includeLines_noNL _
            (show sa.includeFiles.all plainScalar = true from by rw [hsa2] at hsa; exact hsa) _ hs
    · simp only [serializeBundleAllLines, serializeBundleLines, hsa2, hfv2,
        List.cons_append, List.nil_append, List.append_assoc, List.append_nil,
        List.mem_cons, List.mem_append, List.mem_singleton, List.not_mem_nil,
        or_false] at hs
      rcases hs with rfl|rfl|rfl|rfl|rfl|rfl|rfl|rfl|rfl|rfl|rfl|rfl|rfl|hs|rfl|hs|rfl|rfl|rfl|rfl|rfl|rfl
      all_goals first
        | decide
        | exact noNL_append _ _ (by decide) (plainScalar_noNL hver)
        | exact noNL_append _ _ (by decide) (plainScalar_noNL hrun)
        | exact noNL_append _ _ (by decide) (intLit_noNL _)
        | exact noNL_append _ _ (by decide) (plainScalar_noNL hapn)
        | exact noNL_append _ _ (by decide) (plainScalar_noNL hav)
        | exact noNL_append _ _ (by decide) (plainScalar_noNL hfw)
        | exact noNL_append _ _ (by decide)
            (plainScalar_noNL (show plainScalar fv = true from by rw [hfv2] at hfv; exact hfv))
        | exact mem_includeLines_noNL _ hsrv _ hs
        | exact mem_includeLines_noNL _
            (show sa.includeFiles.all plainScalar = true from by rw [hsa2] at hsa; exact hsa) _ hs

theorem parseBundle_serializeBundle (b : BundleYaml) (h : bundleWellFormed b = true) :
    parseBundle (serializeBundle b) = some b := by
  unfold parseBundle
  rw [serializeBundle_toList]
  rw [splitLinesAux_joinLines _ (serializeBundleAllLines_noNL b h)
    (by simp [serializeBundleAllLines])]
  rw [map_mk_map_toList]
  exact parseBundleLines_allLines b h

theorem mem_includeLines_no_fv (paths : List String) (s : String)
    (hs : s ∈ includeLines paths) :
    (!(jsStartsWith s "  frameworkVersion:")) = true := by
  cases paths with
  | nil =>
    rw [includeLines] at hs
    simp only [List.mem_singleton] at hs
    subst hs
    decide
  | cons p ps =>
    rw [includeLines] at hs
    simp only [List.cons_append, List.nil_append, List.mem_cons, List.mem_map] at hs
    rcases hs with rfl | ⟨q, hq, rfl⟩
    · decide
    · rfl

theorem serializeBundleLines_no_fv (b : BundleYaml)
    (hfveq : b.metadata.frameworkVersion = none) :
    (serializeBundleLines b).all (fun l => !(jsStartsWith l "  frameworkVersion:")) = true := by
  rw [List.all_eq_true]
  intro s hs
  rcases hsa2 : b.outputFiles.staticAssets with _ | sa
  · simp only [serializeBundleLines, hsa2, hfveq, List.cons_append, List.nil_append,
      List.append_assoc, List.append_nil, List.mem_cons, List.mem_append,
      List.mem_singleton, List.not_mem_nil, or_false] at hs
    rcases hs with rfl|rfl|rfl|rfl|rfl|rfl|rfl|rfl|rfl|rfl|hs|rfl|rfl|rfl|rfl
    all_goals first
      | rfl
      | exact mem_includeLines_no_fv _ _ hs
  · simp only [serializeBundleLines, hsa2, hfveq, List.cons_append, List.nil_append,
      List.append_assoc, List.append_nil, List.mem_cons, List.mem_append,
      List.mem_singleton, List.not_mem_nil, or_false] at hs
    rcases hs with rfl|rfl|rfl|rfl|rfl|rfl|rfl|rfl|rfl|rfl|hs|rfl|hs|rfl|rfl|rfl|rfl
    all_goals first
      | rfl
      | exact mem_includeLines_no_fv _ _ hs

/-- C6: for a bundle whose scalars are plain-safe, the serialized YAML text
round-trips: a conformant reader recovers exactly the bundle that was
serialized, and when `metadata.frameworkVersion` is undefined the dump
contains no `frameworkVersion` line at all (the undefined optional field is
omitted rather than emitted as null). -/
theorem claim_C6_roundtrip (b : BundleYaml) (h : bundleWellFormed b = true) :
    parseBundle (serializeBundle b) = some b ∧
      (b.metadata.frameworkVersion = none →
        (serializeBundleLines b).all
          (fun l => !(jsStartsWith l "  frameworkVersion:")) = true) :=
  ⟨parseBundle_serializeBundle b h, fun hfveq => serializeBundleLines_no_fv b hfveq⟩

/-- Witness for C6 at the default bundle of the repository's tests. -/
theorem claim_C6_roundtrip_witness :
    bundleWellFormed
        ⟨"v1", ⟨"node_modules/.bin/remix-serve build/server/index.js", 80, 1, 512, 0, 10⟩,
          ⟨⟨["build/server", "build/client", "package.json", "node_modules"]⟩, none⟩,
          ⟨"firemix", "0.1.1", "remix", none⟩⟩ = true ∧
      (parseBundle (serializeBundle
          ⟨"v1", ⟨"node_modules/.bin/remix-serve build/server/index.js", 80, 1, 512, 0, 10⟩,
            ⟨⟨["build/server", "build/client", "package.json", "node_modules"]⟩, none⟩,
            ⟨"firemix", "0.1.1", "remix", none⟩⟩) =
        some ⟨"v1", ⟨"node_modules/.bin/remix-serve build/server/index.js", 80, 1, 512, 0, 10⟩,
          ⟨⟨["build/server", "build/client", "package.json", "node_modules"]⟩, none⟩,
          ⟨"firemix", "0.1.1", "remix", none⟩⟩ ∧
        ((⟨"v1", ⟨"node_modules/.bin/remix-serve build/server/index.js", 80, 1, 512, 0, 10⟩,
            ⟨⟨["build/server", "build/client", "package.json", "node_modules"]⟩, none⟩,
            ⟨"firemix", "0.1.1", "remix", none⟩⟩ : BundleYaml).metadata.frameworkVersion = none →
          (serializeBundleLines
            ⟨"v1", ⟨"node_modules/.bin/remix-serve build/server/index.js", 80, 1, 512, 0, 10⟩,
              ⟨⟨["build/server", "build/client", "package.json", "node_modules"]⟩, none⟩,
              ⟨"firemix", "0.1.1", "remix", none⟩⟩).all
            (fun l => !(jsStartsWith l "  frameworkVersion:")) = true)) :=
  ⟨by decide,
    claim_C6_roundtrip
      ⟨"v1", ⟨"node_modules/.bin/remix-serve build/server/index.js", 80, 1, 512, 0, 10⟩,
        ⟨⟨["build/server", "build/client", "package.json", "node_modules"]⟩, none⟩,
        ⟨"firemix", "0.1.1", "remix", none⟩⟩ (by decide)⟩

end Firemix
